import Mathlib

/-!
Verification model of the Agent Sous Chef command engines.

The repository contains several near-duplicate command dispatchers:
* `src/core/commands.py` — the pure engine `handle_command` over `CookingState`;
* `src/commands_headless.py` — `handle_user_command_headless`, returning a
  `SessionUpdate` describing the state changes;
* `src/commands.py` — `handle_user_command`, the Streamlit engine with
  recipe-pick mode, mutating `st.session_state`;
* `src/app.py` — an inline dispatcher in the Streamlit main script.

Strings are modelled over their character lists; Python `str.lower`, `str.strip`,
the `in` substring test and the specific regular expressions used by the source
are modelled as executable functions on ASCII text (all commands, triggers and
recipe data in the repository are ASCII where case/whitespace matters).
Python dicts are modelled as association lists and Python sets as lists with
membership semantics; `current_step` is a Python `int` that is nonnegative in
every state the engines produce or read, modelled as `Nat` except where a
subtraction can go negative (modelled as `Int`, matching the source guard).
-/

set_option maxRecDepth 4000

namespace SousChef

/-- ASCII model of Python whitespace: the six characters matched by `str.strip()`
and the regex class `\s`. -/
def pyIsSpace (c : Char) : Bool :=
  c = ' ' || c = '\t' || c = '\n' || c = '\r' || c = '\x0b' || c = '\x0c'

/-- ASCII model of Python `str.lower` on one character. -/
def pyLowerChar (c : Char) : Char :=
  if 'A' ≤ c ∧ c ≤ 'Z' then Char.ofNat (c.toNat + 32) else c

/-- Python `s.lower()`. -/
def pyLower (s : String) : String := ⟨s.data.map pyLowerChar⟩

/-- Trim `pyIsSpace` characters from both ends of a character list. -/
def pyStripChars (l : List Char) : List Char :=
  ((l.dropWhile pyIsSpace).reverse.dropWhile pyIsSpace).reverse

/-- Python `s.strip()`. -/
def pyStrip (s : String) : String := ⟨pyStripChars s.data⟩

/-- Python substring test `sub in hay`. -/
def pyContains (hay sub : String) : Bool := decide (sub.data <:+: hay.data)

/-- Python `s.startswith(p)`. -/
def pyStarts (s p : String) : Bool := decide (p.data <+: s.data)

/-- Python slice `s[k:]` (by characters). -/
def pyDropChars (s : String) (k : Nat) : String := ⟨s.data.drop k⟩

/-- Value of a digit string, as computed by Python `int()`. -/
def digitsToNat (l : List Char) : Nat := l.foldl (fun a c => a * 10 + (c.toNat - 48)) 0

/-- Model of `re.match(r"^x\s+(\d+)\s*$", s)` (the headless / Streamlit
"mark steps done" pattern), returning the captured integer. -/
def matchXNum (s : String) : Option Nat :=
  match s.data with
  | c0 :: c :: rest =>
    if c0 = 'x' ∧ pyIsSpace c then
      let t := List.dropWhile pyIsSpace (c :: rest)
      let ds := List.takeWhile Char.isDigit t
      let tail := List.dropWhile Char.isDigit t
      if ds ≠ [] ∧ tail.all pyIsSpace then some (digitsToNat ds) else none
    else none
  | _ => none

/-- Model of `re.match(r"^x\s+(\d+)$", s)` from `core/commands.py`; `s` is
already stripped there, so `$` is plain end-of-string. -/
def matchXNumCore (s : String) : Option Nat :=
  match s.data with
  | c0 :: c :: rest =>
    if c0 = 'x' ∧ pyIsSpace c then
      let t := List.dropWhile pyIsSpace (c :: rest)
      let ds := List.takeWhile Char.isDigit t
      let tail := List.dropWhile Char.isDigit t
      if ds ≠ [] ∧ tail = [] then some (digitsToNat ds) else none
    else none
  | _ => none

/-- Model of `re.match(r"^x\s+(.+)$", s)` from `core/commands.py`, for `s`
with no trailing newline (it is applied to a stripped string): the match
succeeds iff the remainder after the maximal whitespace run following `x`
is nonempty and contains no newline, and the capture is that remainder
(greedy `\s+`; `.` does not match a newline). -/
def matchXTarget (s : String) : Option String :=
  match s.data with
  | c0 :: c :: rest =>
    if c0 = 'x' ∧ pyIsSpace c then
      let t := List.dropWhile pyIsSpace (c :: rest)
      if t ≠ [] ∧ t.all (fun ch => ch ≠ '\n') then some ⟨t⟩ else none
    else none
  | _ => none

/-- Model of `re.match(r"^\s*(\d+)\s*$", s)` (purely numeric input),
returning the captured integer. -/
def matchPureNum (s : String) : Option Nat :=
  let t := List.dropWhile pyIsSpace s.data
  let ds := List.takeWhile Char.isDigit t
  let tail := List.dropWhile Char.isDigit t
  if ds ≠ [] ∧ tail.all pyIsSpace then some (digitsToNat ds) else none

/-- Model of `re.match(r"^(\d+)$", s)` from `core/commands.py` (applied to the
stripped raw input). -/
def matchAllDigits (s : String) : Option Nat :=
  if s.data ≠ [] ∧ s.data.all Char.isDigit then some (digitsToNat s.data) else none

/-- Python dict access on the association-list model: `k in d` iff the lookup
succeeds, and `d[k]` / `d.get(k)` is the stored value. -/
def dictFind (d : List (String × String)) (k : String) : Option String :=
  (d.find? (fun p => p.1 == k)).map (·.2)

/-- Python set union `s.update(xs)` on the list model of sets: membership in
the result is membership in `s` or in `xs`. -/
def listUnion (s xs : List String) : List String :=
  s ++ xs.filter (fun x => !s.contains x)

/-- Python set difference (repeated `s.discard(x)` for `x ∈ xs`). -/
def listDiff (s xs : List String) : List String :=
  s.filter (fun x => !xs.contains x)

/-! ## `src/core/commands.py` — the pure command engine -/

/-- `CookingState` from `core/commands.py`. -/
structure CookingState where
  recipe_key : String
  current_step : Nat := 0
  ingredient_subs : List (String × String) := []
  ingredient_strikes : List String := []
deriving Repr, DecidableEq

/-- `CommandResult` from `core/commands.py`. -/
structure CommandResult where
  handled : Bool
  reply : String
  new_state : Option CookingState := none
  advance_step : Bool := false
deriving Repr, DecidableEq

/-- `format_ingredient_list` from `core/commands.py`. -/
def format_ingredient_list (ingredients : List String) (subs : List (String × String))
    (strikes : List String) : String :=
  String.intercalate "\n" <| ingredients.map fun ing =>
    let display := match dictFind subs ing with
      | some v => v ++ " (instead of " ++ ing ++ ")"
      | none => ing
    if strikes.contains ing then "- ~~" ++ display ++ "~~" else "- " ++ display

/-- `format_steps_list` from `core/commands.py`. -/
def format_steps_list (steps : List String) (current_step : Nat) : String :=
  String.intercalate "\n" <| steps.enum.map fun p =>
    if p.1 < current_step then toString (p.1 + 1) ++ ". ~~" ++ p.2 ++ "~~"
    else toString (p.1 + 1) ++ ". " ++ p.2

/-- `handle_command` from `core/commands.py`: the pure command engine.
Branches appear in source order; the first match returns. -/
def handle_command (user_input : String) (state : CookingState) (recipe_name : String)
    (ingredients : List String) (steps : List String) : CommandResult :=
  let lower := pyStrip (pyLower user_input)
  if lower = "i" ∨ lower = "ingredients" then
    { handled := true
      reply := "**Ingredients:**\n\n" ++
        format_ingredient_list ingredients state.ingredient_subs state.ingredient_strikes }
  else if lower = "s" ∨ lower = "steps" then
    { handled := true, reply := "**Steps:**\n\n" ++ format_steps_list steps state.current_step }
  else if lower = "k" ∨ lower = "ok" ∨ lower = "next" ∨ lower = "done" then
    if steps.length ≤ state.current_step then
      { handled := true, reply := "You\x27ve completed all steps! 🎉" }
    else
      let step_num := state.current_step + 1
      let step_text := steps.getD state.current_step ""
      { handled := true
        reply := "**Step " ++ toString step_num ++ ":**\n\n" ++ step_text
        new_state := some { state with current_step := state.current_step + 1 } }
  else
    match matchXNumCore lower with
    | some n0 =>
      let n := Nat.max 0 (Nat.min n0 steps.length)
      let first := if 0 < n then "Marked steps 1-" ++ toString n ++ " as complete."
                   else "Reset to beginning."
      { handled := true
        reply := String.intercalate "\n" [first, "\n**All Steps:**\n", format_steps_list steps n]
        new_state := some { state with current_step := n } }
    | none =>
    match matchXTarget lower with
    | some target0 =>
      let target := pyStrip target0
      let matched := ingredients.filter (fun ing => pyContains (pyLower ing) target)
      if matched = [] then
        { handled := true
          reply := "Couldn\x27t find ingredient matching \x27" ++ target ++ "\x27" }
      else
        let new_strikes := listUnion state.ingredient_strikes matched
        { handled := true
          reply := "Marked as used:\n\n" ++
            format_ingredient_list ingredients state.ingredient_subs new_strikes
          new_state := some { state with ingredient_strikes := new_strikes } }
    | none =>
      if lower = "what" then
        let lines1 := ["**Cooking: " ++ recipe_name ++ "**\n"]
        let lines2 := if ingredients ≠ [] then
            lines1 ++ ["**Ingredients:**",
              format_ingredient_list ingredients state.ingredient_subs state.ingredient_strikes, ""]
          else lines1
        let lines3 := if state.current_step < steps.length then
            lines2 ++ ["**Current Step (" ++ toString (state.current_step + 1) ++ "/" ++
              toString steps.length ++ "):**", steps.getD state.current_step ""]
          else lines2 ++ ["✅ All steps complete!"]
        { handled := true, reply := String.intercalate "\n" lines3 }
      else
        match matchAllDigits (pyStrip user_input) with
        | some step_num =>
          if 1 ≤ step_num ∧ step_num ≤ steps.length then
            { handled := true
              reply := "**Step " ++ toString step_num ++ ":**\n\n" ++ steps.getD (step_num - 1) "" }
          else
            { handled := false, reply := "" }
        | none => { handled := false, reply := "" }

/-! ## `src/view_helpers.py` — shared formatting helpers -/

/-- Python `d.get(k)` followed by a truthiness test `if sub_name:` — an empty
string stored in the dict behaves like an absent key. -/
def dictGetTruthy (d : List (String × String)) (k : String) : Option String :=
  match dictFind d k with
  | some v => if v = "" then none else some v
  | none => none

/-- `format_working_ingredients_markdown` from `view_helpers.py`. -/
def format_working_ingredients_markdown (recipe_ingredients : List String)
    (recipe_subs : List (String × String)) (strikes : List String) : List String :=
  recipe_ingredients.map fun ing =>
    let display := match dictGetTruthy recipe_subs ing with
      | some sub => sub ++ " (instead of " ++ ing ++ ")"
      | none => ing
    if strikes.contains ing then "- ~~" ++ display ++ "~~" else "- " ++ display

/-- `format_steps_with_progress_markdown` from `view_helpers.py`. -/
def format_steps_with_progress_markdown (steps : List String) (current_step : Nat) :
    List String :=
  steps.enum.map fun p =>
    if p.1 < current_step then toString (p.1 + 1) ++ ". ~~" ++ p.2 ++ "~~"
    else toString (p.1 + 1) ++ ". " ++ p.2

/-! ## `src/commands_headless.py` — the headless engine -/

/-- `COMMANDS_CONDENSED` (identical in `commands_headless.py`, `commands.py`
and `app.py`). -/
def COMMANDS_CONDENSED : String :=
  "Commands: i=ingredients  |  s=steps  |  x=item/steps done  |  " ++
  "k=next step  |  what=status  |  clear=restart  |  pick=choose recipe"

/-- The reset phrases of rule 1 (same list in `commands_headless.py`,
`commands.py` and `app.py`). -/
def start_over_triggers : List String :=
  ["start over", "restart", "start again", "reset recipe",
   "start this recipe over", "clear"]

/-- The confirmation set of the headless advance rule. -/
def next_step_triggers : List String :=
  ["k", "ok", "okay", "next", "next step", "done", "finished"]

/-- Strike-command leaders checked with `startswith`, in source order. -/
def strike_leaders : List String :=
  ["strikethrough ", "strike ", "cross off ", "x ", "cross ", "86 "]

/-- Unstrike-command leaders checked with `startswith`, in source order. -/
def unstrike_leaders : List String :=
  ["unstrike ", "uncross ", "restore "]

/-- Ingredient-listing phrases (same list in `commands_headless.py`,
`commands.py` and `app.py`). -/
def ingredient_triggers : List String :=
  ["ingredients", "ingredient list", "what are the ingredients",
   "show ingredients", "list the ingredients", "what do i need"]

/-- Step-listing phrases; note the single letter `"s"` is a member and the
check below is substring-based. -/
def step_triggers : List String :=
  ["show all steps", "steps", "list steps", "show steps",
   "what are the steps", "s"]

/-- `any(phrase == lower or phrase in lower for phrase in triggers)`. -/
def anyTrigger (triggers : List String) (lower : String) : Bool :=
  triggers.any fun phrase => phrase == lower || pyContains lower phrase

/-- Whether a strike or unstrike command leader starts the stripped input;
returns the kind and the stripped remainder (`stripped[len(leader):].strip()`),
trying the strike leaders first and within each list in source order. -/
def detect_strike_command (stripped : String) : Option (Bool × String) :=
  match strike_leaders.find? (fun p => pyStarts stripped p) with
  | some p => some (true, pyStrip (pyDropChars stripped p.length))
  | none =>
    match unstrike_leaders.find? (fun p => pyStarts stripped p) with
    | some p => some (false, pyStrip (pyDropChars stripped p.length))
    | none => none

/-- The `matching_keys` loop of the strike/unstrike branch in
`commands_headless.py`: the ingredients whose combined searchable text — the
lowercased original, plus a space and the lowercased substitute name when a
truthy one is stored — contains the lowercased target as a substring. -/
def matching_keys (recipe_ingredients : List String)
    (recipe_subs : List (String × String)) (target : String) : List String :=
  recipe_ingredients.filter fun base_ing =>
    let search_text := pyLower base_ing ++
      (match dictGetTruthy recipe_subs base_ing with
       | some sub => " " ++ pyLower sub
       | none => "")
    pyContains search_text (pyLower target)

/-- `SessionUpdate` from `commands_headless.py` ("Encapsulates changes that
should be applied to a session"). -/
structure SessionUpdate where
  new_current_step : Option Nat := none
  strikes_to_add : List String := []
  strikes_to_remove : List String := []
  subs_to_add : List (String × String) := []
  subs_to_remove : List String := []
deriving Repr, DecidableEq

/-- A `SessionUpdate` that only moves `current_step` (all the other change
sets empty) — the update produced by the reset, mark-steps and advance rules. -/
def stepOnlyUpdate (n : Nat) : SessionUpdate := { new_current_step := some n }

/-- The dict returned by `handle_user_command_headless`. -/
structure HeadlessResult where
  handled : Bool
  reply_text : String
  advance_step : Bool
  session_update : Option SessionUpdate
deriving Repr, DecidableEq

/-- `handle_user_command_headless` from `commands_headless.py`. Branches appear
in source order (reset, mark-steps `x N`, advance, strike/unstrike,
ingredient list, steps list, `what`, numeric), the first match returning. -/
def handle_user_command_headless (user_input recipe_name recipe_description : String)
    (recipe_steps recipe_ingredients : List String)
    (recipe_subs : List (String × String)) (ingredient_strikes : List String)
    (current_step : Nat) : HeadlessResult :=
  let lower := pyStrip (pyLower user_input)
  -- 1. Full reset / clear commands
  if anyTrigger start_over_triggers lower then
    { handled := true
      reply_text := "Okay, I\x27ve reset your progress. You\x27re back at the beginning of " ++
        recipe_name ++ "."
      advance_step := false
      session_update := some { new_current_step := some 0
                               strikes_to_remove := ingredient_strikes } }
  else
  -- 2. Mark steps complete with "x N"
  match matchXNum lower with
  | some n0 =>
    let n := Nat.max 0 (Nat.min n0 recipe_steps.length)
    let head_line :=
      if n = 0 then
        "Okay, I\x27ve reset your step progress. You\x27re back at the beginning."
      else if recipe_steps.length ≤ n then
        "Okay, I\x27ve marked all " ++ toString recipe_steps.length ++
          " steps as done. You\x27ve completed the recipe!"
      else
        "Got it. I\x27ve marked steps 1 through " ++ toString n ++
          " as done. You\x27re now on step " ++ toString (n + 1) ++ "."
    { handled := true
      reply_text := String.intercalate "\n"
        ([head_line, "", "Here are all the steps with your updated progress:", ""] ++
         format_steps_with_progress_markdown recipe_steps n)
      advance_step := false
      session_update := some { new_current_step := some n } }
  | none =>
  -- 3. Simple next-step commands
  if next_step_triggers.contains lower then
    if current_step < recipe_steps.length then
      { handled := true
        reply_text := "Next step:\n\n" ++ toString (current_step + 1) ++ ". " ++
          recipe_steps.getD current_step ""
        advance_step := false
        session_update :=
          some { new_current_step := some (Nat.min (current_step + 1) recipe_steps.length) } }
    else
      { handled := true
        reply_text := "You\x27ve already completed all the steps in this recipe."
        advance_step := false
        session_update := some {} }
  else
  -- 4. Ingredient strike / unstrike commands
  match detect_strike_command (pyStrip lower) with
  | some (is_strike, target) =>
    if target = "" then
      { handled := true
        reply_text := "Tell me which ingredient to change, for example: `x oil` or `86 butter`."
        advance_step := false
        session_update := none }
    else
      if matching_keys recipe_ingredients recipe_subs target = [] then
        { handled := true
          reply_text := String.intercalate "\n"
            (["I couldn\x27t find an ingredient matching \x27" ++ target ++
                "\x27 in this recipe.",
              "Here are the ingredients I see:", ""] ++
             format_working_ingredients_markdown recipe_ingredients recipe_subs
               ingredient_strikes)
          advance_step := false
          session_update := none }
      else if is_strike then
        let updated_strikes :=
          listUnion ingredient_strikes (matching_keys recipe_ingredients recipe_subs target)
        { handled := true
          reply_text := String.intercalate "\n"
            (["Got it. I updated your ingredient list. Here is the current version:", ""] ++
             format_working_ingredients_markdown recipe_ingredients recipe_subs
               updated_strikes)
          advance_step := false
          session_update :=
            some { strikes_to_add := matching_keys recipe_ingredients recipe_subs target } }
      else
        let updated_strikes :=
          listDiff ingredient_strikes (matching_keys recipe_ingredients recipe_subs target)
        { handled := true
          reply_text := String.intercalate "\n"
            (["Got it. I restored those ingredients. Here is the current list:", ""] ++
             format_working_ingredients_markdown recipe_ingredients recipe_subs
               updated_strikes)
          advance_step := false
          session_update :=
            some { strikes_to_remove := matching_keys recipe_ingredients recipe_subs target } }
  | none =>
  -- 5. Ingredient list command
  if lower = "i" ∨ anyTrigger ingredient_triggers lower then
    { handled := true
      reply_text :=
        if recipe_ingredients ≠ [] then
          String.intercalate "\n"
            (["Here are the ingredients for this recipe (with substitutions applied):", ""] ++
             format_working_ingredients_markdown recipe_ingredients recipe_subs
               ingredient_strikes)
        else "This recipe does not have a stored ingredient list yet."
      advance_step := false
      session_update := none }
  else
  -- 6. Steps listing commands (note: the single-letter trigger "s" is tested
  -- as a substring just like the longer phrases)
  if anyTrigger step_triggers lower then
    { handled := true
      reply_text :=
        if recipe_steps ≠ [] then
          String.intercalate "\n"
            (["Here are all the steps for this recipe:", ""] ++
             format_steps_with_progress_markdown recipe_steps current_step)
        else "This recipe does not have any steps defined yet."
      advance_step := false
      session_update := none }
  else
  -- 7. "what" status command
  if lower = "what" then
    let lines1 := ["### You are cooking: " ++ recipe_name, ""]
    let lines2 := if recipe_ingredients ≠ [] then
        lines1 ++ ["#### Ingredients (with substitutions applied)", ""] ++
          format_working_ingredients_markdown recipe_ingredients recipe_subs
            ingredient_strikes ++ [""]
      else lines1
    let lines3 := if current_step < recipe_steps.length then
        lines2 ++ ["#### Current step", "",
          toString (current_step + 1) ++ ". " ++ recipe_steps.getD current_step ""]
      else lines2 ++ ["You\x27ve completed all the steps in this recipe."]
    { handled := true
      reply_text := String.intercalate "\n" (lines3 ++ ["", "---", "", COMMANDS_CONDENSED])
      advance_step := false
      session_update := none }
  else
  -- 8. Numeric-only input: show step
  match matchPureNum user_input with
  | some step_num =>
    let step_index : Int := (step_num : Int) - 1
    if 0 ≤ step_index ∧ step_index < (recipe_steps.length : Int) then
      { handled := true
        reply_text := toString step_num ++ ". " ++ recipe_steps.getD step_index.toNat ""
        advance_step := false
        session_update := none }
    else
      { handled := true
        reply_text := "This recipe only has " ++ toString recipe_steps.length ++ " steps."
        advance_step := false
        session_update := none }
  | none =>
    { handled := false, reply_text := "", advance_step := false, session_update := none }

/-- Modelled from the spec: applying a `SessionUpdate` to the session fields it
describes. `commands_headless.py` documents `SessionUpdate` as "Encapsulates
changes that should be applied to a session", and the spec (§2) has the caller
apply the engine-returned changes to the stored state; no applier function
exists under `src/`, so the evident field-wise application is used:
`new_current_step` overrides `current_step` when present, strike additions and
removals are applied to `ingredient_strikes`, and substitution removals and
additions are applied to `ingredient_subs`. -/
def applySessionUpdate (u : SessionUpdate) (subs : List (String × String))
    (strikes : List String) (current_step : Nat) :
    List (String × String) × List String × Nat :=
  ((subs.filter fun p => !u.subs_to_remove.contains p.1) ++ u.subs_to_add,
   listUnion (listDiff strikes u.strikes_to_remove) u.strikes_to_add,
   u.new_current_step.getD current_step)

/-! ## `src/commands.py` — the Streamlit engine with recipe-pick mode -/

/-- Python `str.split()` with no arguments: split on whitespace runs,
dropping empty pieces (accumulator holds the current word reversed). -/
def splitWsAux : List Char → List Char → List (List Char)
  | [], acc => if acc = [] then [] else [acc.reverse]
  | c :: rest, acc =>
    if pyIsSpace c then
      if acc = [] then splitWsAux rest [] else acc.reverse :: splitWsAux rest []
    else splitWsAux rest (c :: acc)

/-- Python `s.split()`. -/
def pySplit (s : String) : List String := (splitWsAux s.data []).map fun l => ⟨l⟩

/-- Model of the `st.session_state` fields used by `commands.py` / `app.py`.
`pick_candidates` is `None`-or-a-list read through `.get` (a missing key reads
as `None`); the other keys are re-established before being read on every path
the model follows. -/
structure StSessionState where
  recipe_key : String
  messages : List (String × String) := []
  current_step : Nat := 0
  ingredient_subs : List (String × List (String × String)) := []
  ingredient_strikes : List (String × List String) := []
  pending_recipe_pick : Bool := false
  pick_candidates : Option (List String) := none
deriving Repr, DecidableEq

/-- The dict returned by `handle_user_command` in `commands.py`. -/
structure PyResult where
  handled : Bool
  reply_text : String
  advance_step : Bool
deriving Repr, DecidableEq

/-- Outcome of a Streamlit handler call: a returned result dict, or an
`st.rerun()` that aborts the current script run. -/
inductive StOutcome
  | ret (r : PyResult)
  | rerun
deriving Repr, DecidableEq

/-- `reset_conversation_for_recipe` from `commands.py` (identical in `app.py`
and `ui/streamlit_app.py`): clear all session state and re-initialise it for
`new_recipe_key`, with the greeting message appended. `lib_name` models
`RECIPE_LIBRARY[·]["name"]`. -/
def reset_conversation_for_recipe (lib_name : String → String)
    (new_recipe_key : String) : StSessionState :=
  { recipe_key := new_recipe_key
    messages := [("assistant",
      "Now cooking: " ++ lib_name new_recipe_key ++ ".\n\n" ++ COMMANDS_CONDENSED)]
    current_step := 0
    ingredient_subs := [(new_recipe_key, [])]
    ingredient_strikes := [(new_recipe_key, [])]
    pending_recipe_pick := false
    pick_candidates := none }

/-- `handle_user_command` from `commands.py`. Branches in source order:
cancel-pick, reset, `x N`, `pick`, pick-mode keyword filter, numeric input
(pick selection or step display), ingredient list, steps list, `what`,
unhandled. `items` is `get_recipe_keys_and_labels()` and `lib_name` is
`RECIPE_LIBRARY[·]["name"]`. `recipe_key` is present in session state on
every path that reads it, so it is a plain field here. -/
def handle_user_command (user_input recipe_name recipe_description : String)
    (recipe_steps recipe_ingredients : List String)
    (recipe_subs : List (String × String))
    (items : List (String × String)) (lib_name : String → String)
    (ss : StSessionState) : StSessionState × StOutcome :=
  let lower := pyStrip (pyLower user_input)
  -- Allow cancelling recipe search (pick) mode
  if (lower = "cancel" ∨ lower = "exit" ∨ lower = "stop picking") ∧ ss.pending_recipe_pick then
    ({ ss with pending_recipe_pick := false, pick_candidates := none },
     .ret { handled := true, reply_text := "Okay, leaving recipe search mode.",
            advance_step := false })
  else
  -- 1. Full reset / clear commands ("recipe_key" is in session state here)
  if anyTrigger start_over_triggers lower then
    (reset_conversation_for_recipe lib_name ss.recipe_key, .rerun)
  else
  -- 2. Mark steps complete with "x N"
  match matchXNum lower with
  | some n0 =>
    let n := if recipe_steps.length < n0 then recipe_steps.length else n0
    let head_line :=
      if n = 0 then
        "Okay, I’ve reset your step progress. You’re back at the beginning."
      else if recipe_steps.length ≤ n then
        "Okay, I’ve marked all " ++ toString recipe_steps.length ++
          " steps as done. You’ve completed the recipe!"
      else
        "Got it. I’ve marked steps 1 through " ++ toString n ++
          " as done. You’re now on step " ++ toString (n + 1) ++ "."
    ({ ss with current_step := n },
     .ret { handled := true
            reply_text := String.intercalate "\n"
              ([head_line, "", "Here are all the steps with your updated progress:", ""] ++
               format_steps_with_progress_markdown recipe_steps n)
            advance_step := false })
  | none =>
  -- 3. Enter pick mode (interviewer style)
  if lower = "pick" then
    ({ ss with pending_recipe_pick := true, pick_candidates := none },
     .ret { handled := true
            reply_text := String.intercalate "\n"
              ["Recipe search mode activated.",
               "What are you in the mood for?",
               "Try a keyword like \x27eggs\x27, \x27pasta\x27, \x27soup\x27, or \x27chicken\x27.",
               "I\x27ll show matching recipes and you can pick by number."]
            advance_step := false })
  else
  -- 4. Pick-mode keyword filtering (only returns when the input is not
  -- purely numeric; otherwise control falls through to branch 5)
  if ss.pending_recipe_pick ∧ matchPureNum user_input = none then
    let query := pyStrip lower
    if query = "" then
      (ss, .ret { handled := true
                  reply_text := "Please type a keyword for the kind of recipe you want.\n" ++
                    "For example: \x27eggs\x27, \x27pasta\x27, \x27soup\x27, or \x27chicken\x27."
                  advance_step := false })
    else
      let tokens := (pySplit query).filter fun t => t ≠ ""
      let candidates := items.filter fun kl => tokens.all fun t => pyContains (pyLower kl.2) t
      if candidates = [] then
        (ss, .ret { handled := true
                    reply_text := "I couldn\x27t find any recipes matching \x27" ++ query ++
                      "\x27.\nTry a different keyword like \x27eggs\x27, \x27pasta\x27, " ++
                      "\x27soup\x27, or \x27chicken\x27."
                    advance_step := false })
      else
        let shown := candidates.take 25
        let extra_count := candidates.length - 25
        let lines := ["Recipes matching \x27" ++ query ++ "\x27:", ""] ++
          (shown.enum.map fun p => toString (p.1 + 1) ++ ". " ++ p.2.2) ++
          (if 0 < extra_count then
            ["", "...and " ++ toString extra_count ++ " more results. " ++
              "Try adding another word to narrow it down."]
           else []) ++
          ["", "Reply with a number to pick one of these recipes, " ++
            "or type another keyword to search again."]
        ({ ss with pick_candidates := some (shown.map (·.1)) },
         .ret { handled := true, reply_text := String.intercalate "\n" lines,
                advance_step := false })
  else
  -- 5. Numeric-only input: pick or show step
  match matchPureNum user_input with
  | some n =>
    if ss.pending_recipe_pick then
      let candidates := ss.pick_candidates.getD []
      -- `if not candidates:` — a missing/None or empty list
      if candidates = [] then
        (ss, .ret { handled := true
                    reply_text := "Please type a keyword for the kind of recipe you want first.\n" ++
                      "For example: \x27eggs\x27, \x27pasta\x27, \x27soup\x27, or \x27chicken\x27."
                    advance_step := false })
      else if 1 ≤ n ∧ n ≤ candidates.length then
        let new_key := candidates.getD (n - 1) ""
        let reset := reset_conversation_for_recipe lib_name new_key
        ({ reset with pending_recipe_pick := false, pick_candidates := none }, .rerun)
      else
        (ss, .ret { handled := true
                    reply_text := "There are only " ++ toString candidates.length ++
                      " recipes in the current list. Please pick a number between 1 and " ++
                      toString candidates.length ++ ", or type another keyword to search again."
                    advance_step := false })
    else
      let step_index : Int := (n : Int) - 1
      if 0 ≤ step_index ∧ step_index < (recipe_steps.length : Int) then
        (ss, .ret { handled := true
                    reply_text := toString n ++ ". " ++ recipe_steps.getD step_index.toNat ""
                    advance_step := false })
      else
        (ss, .ret { handled := true
                    reply_text := "This recipe only has " ++ toString recipe_steps.length ++
                      " steps."
                    advance_step := false })
  | none =>
  -- 6. Ingredient list command
  if lower = "i" ∨ anyTrigger ingredient_triggers lower then
    let strikes_for_recipe :=
      ((ss.ingredient_strikes.find? fun p => p.1 == ss.recipe_key).map (·.2)).getD []
    (ss, .ret { handled := true
                reply_text :=
                  if recipe_ingredients ≠ [] then
                    String.intercalate "\n"
                      (["Here are the ingredients for this recipe (with substitutions applied):",
                        ""] ++
                       format_working_ingredients_markdown recipe_ingredients recipe_subs
                         strikes_for_recipe)
                  else "This recipe does not have a stored ingredient list yet."
                advance_step := false })
  else
  -- 7. Steps listing commands
  if anyTrigger step_triggers lower then
    (ss, .ret { handled := true
                reply_text :=
                  if recipe_steps ≠ [] then
                    String.intercalate "\n"
                      (["Here are all the steps for this recipe:", ""] ++
                       format_steps_with_progress_markdown recipe_steps ss.current_step)
                  else "This recipe does not have any steps defined yet."
                advance_step := false })
  else
  -- 8. "what" status command
  if lower = "what" then
    let strikes_for_recipe :=
      ((ss.ingredient_strikes.find? fun p => p.1 == ss.recipe_key).map (·.2)).getD []
    let lines1 := ["### You are cooking: " ++ recipe_name, ""]
    let lines2 := if recipe_ingredients ≠ [] then
        lines1 ++ ["#### Ingredients (with substitutions applied)", ""] ++
          format_working_ingredients_markdown recipe_ingredients recipe_subs
            strikes_for_recipe ++ [""]
      else lines1
    let lines3 := if ss.current_step < recipe_steps.length then
        lines2 ++ ["#### Current step", "",
          toString (ss.current_step + 1) ++ ". " ++ recipe_steps.getD ss.current_step ""]
      else lines2 ++ ["You’ve completed all the steps in this recipe."]
    (ss, .ret { handled := true
                reply_text := String.intercalate "\n" (lines3 ++ ["", "---", "", COMMANDS_CONDENSED])
                advance_step := false })
  else
    (ss, .ret { handled := false, reply_text := "", advance_step := false })

/-! ## `src/app.py` — the inline dispatcher of the Streamlit main script -/

/-- Characters excluded by the regex class `[^,;.]`. -/
def notDelim (c : Char) : Bool := !(c = ',' || c = ';' || c = '.')

/-- Regex word characters, for the `\b` boundary (ASCII model). -/
def isWordChar (c : Char) : Bool := c.isAlpha || c.isDigit || c = '_'

/-- Does `\s+for\s+[^,;.]` match a prefix of `l`? This is the tail of the
substitution pattern after the lazily-matched substitute name: a nonempty
whitespace run, the literal `for`, then a nonempty whitespace run followed by
at least one `[^,;.]` character (a run of length ≥ 2 can donate its last
character to `[^,;.]+`, whitespace not being a delimiter). -/
def matchForTail (l : List Char) : Bool :=
  let w := l.takeWhile pyIsSpace
  let r := l.dropWhile pyIsSpace
  decide (1 ≤ w.length) &&
    match r with
    | 'f' :: 'o' :: 'r' :: r2 =>
      let w2 := r2.takeWhile pyIsSpace
      let r3 := r2.dropWhile pyIsSpace
      decide (1 ≤ w2.length) &&
        (decide (2 ≤ w2.length) || (match r3 with | c :: _ => notDelim c | [] => false))
    | _ => false

/-- After at least one character of the substitute name: succeed if the
`for`-tail matches here, or consume one more `[^,;.]` character. -/
def matchSubBodyGo : List Char → Bool
  | [] => false
  | c :: rest => matchForTail (c :: rest) || (notDelim c && matchSubBodyGo rest)

/-- Does `[^,;.]+?\s+for\s+[^,;.]+` match a prefix of `l`? -/
def matchSubBody : List Char → Bool
  | [] => false
  | c :: rest => notDelim c && matchSubBodyGo rest

/-- Does `\s+[^,;.]+?\s+for\s+[^,;.]+` match a prefix of `l` (the part after
the `sub`/`substitute` literal)? One whitespace character satisfies `\s+`;
further whitespace can be absorbed by the substitute name, whitespace not
being a delimiter. -/
def matchAfterSub : List Char → Bool
  | [] => false
  | c :: rest => pyIsSpace c && matchSubBody rest

/-- Does `re.search`-style matching of
`\bsub(?:stitute)?\s+[^,;.]+?\s+for\s+[^,;.]+` succeed anywhere in the list
(`re.finditer(...)` finds at least one match)? `prev` is the character before
the current position, for the word boundary (the next character is `s`, a word
character, so the boundary holds iff `prev` is absent or not a word
character). -/
def hasSubMatchAux (prev : Option Char) : List Char → Bool
  | [] => false
  | c :: rest =>
    let l := c :: rest
    let bOk := match prev with | none => true | some p => !isWordChar p
    let here :=
      (decide ("substitute".data <+: l) && matchAfterSub (l.drop 10)) ||
      (decide ("sub".data <+: l) && matchAfterSub (l.drop 3))
    (bOk && here) || hasSubMatchAux (some c) rest

/-- `list(re.finditer(sub_pattern, lower))` is nonempty, for
`sub_pattern = r"\bsub(?:stitute)?\s+(?P<sub>[^,;.]+?)\s+for\s+(?P<orig>[^,;.]+)"`. -/
def hasSubMatch (s : String) : Bool := hasSubMatchAux none s.data

/-- Outcome of `app.py`'s inline dispatcher for one chat input, as far as this
model follows it. The substitution branch and the branches after the numeric
one are represented by opaque outcomes: a purely numeric input provably never
reaches them, and no theorem below relies on them. -/
inductive AppOutcome
  | ret (reply_text : String) (advance_step : Bool)
  | rerun
  | substitutionBranch
  | laterBranch
deriving Repr, DecidableEq

/-- The inline command dispatch of `app.py` (the `if user_input:` block,
lines 395–621), modelled through the numeric-input branch in source order:
reset, substitution (`sub X for Y`, opaque), `x N`, `pick`, pick-mode keyword
filter, numeric input (full-catalog pick selection or step display). Later
branches (strike, steps, ingredients, `what`, LLM fallback) are `laterBranch`.
`items` is `app.py`'s `get_recipe_keys_and_labels()` — the full catalog in
`RECIPE_LIBRARY` insertion order, unsorted and unfiltered. -/
def app_dispatch (user_input : String) (recipe_steps : List String)
    (items : List (String × String)) (lib_name : String → String)
    (ss : StSessionState) : StSessionState × AppOutcome :=
  let lower := pyStrip (pyLower user_input)
  if anyTrigger start_over_triggers lower then
    (reset_conversation_for_recipe lib_name ss.recipe_key, .rerun)
  else if hasSubMatch lower then
    (ss, .substitutionBranch)
  else
  match matchXNum lower with
  | some n0 =>
    let n := if recipe_steps.length < n0 then recipe_steps.length else n0
    let head_line :=
      if n = 0 then
        "Okay, I’ve reset your step progress. You’re back at the beginning."
      else if recipe_steps.length ≤ n then
        "Okay, I’ve marked all " ++ toString recipe_steps.length ++
          " steps as done. You’ve completed the recipe!"
      else
        "Got it. I’ve marked steps 1 through " ++ toString n ++
          " as done. You’re now on step " ++ toString (n + 1) ++ "."
    ({ ss with current_step := n },
     .ret (String.intercalate "\n"
        ([head_line, "", "Here are all the steps with your updated progress:", ""] ++
         format_steps_with_progress_markdown recipe_steps n)) false)
  | none =>
  if lower = "pick" then
    let lines := ["Available recipes:", ""] ++
      (items.enum.map fun p => toString (p.1 + 1) ++ ". " ++ p.2.2) ++
      ["", "Reply with a number (e.g., 1 or 2) to pick a recipe."]
    ({ ss with pending_recipe_pick := true },
     .ret (String.intercalate "\n" lines) false)
  else
  -- pick-mode keyword filter over the full catalog, keeping original numbering
  if ss.pending_recipe_pick ∧ matchPureNum user_input = none then
    let query := pyStrip lower
    let matching := items.enum.filter fun p => pyContains (pyLower p.2.2) query
    let lines :=
      if matching ≠ [] then
        ["Recipes matching \x27" ++ query ++ "\x27:", ""] ++
        (matching.map fun p => toString (p.1 + 1) ++ ". " ++ p.2.2) ++
        ["", "Reply with a number to pick one of these recipes, " ++
          "or type another keyword to filter again."]
      else
        ["I couldn\x27t find any recipes matching \x27" ++ query ++
          "\x27. Here are all available recipes:", ""] ++
        (items.enum.map fun p => toString (p.1 + 1) ++ ". " ++ p.2.2) ++
        ["", "Reply with a number (e.g., 1 or 2) to pick a recipe, " ++
          "or type another keyword to filter."]
    (ss, .ret (String.intercalate "\n" lines) false)
  else
  match matchPureNum user_input with
  | some n =>
    if ss.pending_recipe_pick then
      -- resolves against the FULL catalog `items`, not a stored candidate list
      if 1 ≤ n ∧ n ≤ items.length then
        (reset_conversation_for_recipe lib_name (items.getD (n - 1) ("", "")).1, .rerun)
      else
        (ss, .ret ("There are only " ++ toString items.length ++
          " recipes. Please pick a number between 1 and " ++ toString items.length ++ ".") false)
    else
      let step_index : Int := (n : Int) - 1
      if 0 ≤ step_index ∧ step_index < (recipe_steps.length : Int) then
        (ss, .ret (toString n ++ ". " ++ recipe_steps.getD step_index.toNat "") false)
      else
        (ss, .ret ("This recipe only has " ++ toString recipe_steps.length ++ " steps.") false)
  | none => (ss, .laterBranch)

example : (handle_command "x 3" { recipe_key := "garlic_pasta" } "Simple Garlic Pasta"
    [] ["a", "b", "c", "d"]).new_state = some { recipe_key := "garlic_pasta", current_step := 3 } := by
  decide

example : (handle_command "x eggs" { recipe_key := "scrambled_eggs" } "Soft Scrambled Eggs"
    ["3 large eggs", "Salt"] ["s1"]).new_state =
    some { recipe_key := "scrambled_eggs", ingredient_strikes := ["3 large eggs"] } := by
  decide

example : (handle_command "86 EGGS" { recipe_key := "scrambled_eggs" } "Soft Scrambled Eggs"
    ["3 large eggs", "Salt"] ["s1"]).handled = false := by decide

example : (handle_command "999" { recipe_key := "garlic_pasta" } "Simple Garlic Pasta"
    [] ["a", "b", "c", "d", "e", "f", "g"]).handled = false := by decide

example : (handle_command "5" { recipe_key := "garlic_pasta" } "Simple Garlic Pasta"
    [] ["a", "b", "c", "d", "e", "f", "g"]).reply = "**Step 5:**\n\ne" := by decide

example : (handle_user_command_headless "x eggs" "Soft Scrambled Eggs" "d"
    ["s1"] ["3 large eggs", "Salt"] [] [] 0).session_update =
    some { strikes_to_add := ["3 large eggs"] } := by decide

example : (handle_user_command_headless "86 EGGS" "Soft Scrambled Eggs" "d"
    ["s1"] ["3 large eggs", "Salt"] [] [] 0).session_update =
    some { strikes_to_add := ["3 large eggs"] } := by decide

example : (handle_user_command_headless "clear" "Soft Scrambled Eggs" "d"
    ["s1"] ["3 large eggs"] [("3 large eggs", "tofu")] ["3 large eggs"] 1).session_update =
    some { new_current_step := some 0, strikes_to_remove := ["3 large eggs"] } := by decide

example : (handle_user_command_headless "I just added the garlic, what's the smell like?"
    "Simple Garlic Pasta" "d" ["s1", "s2"] [] [] [] 0).handled = true := by decide

example : (handle_user_command_headless "ok." "Simple Garlic Pasta" "d"
    ["s1", "s2"] [] [] [] 0).handled = false := by decide

example : (handle_user_command_headless "999" "Simple Garlic Pasta" "d"
    ["s1", "s2", "s3", "s4", "s5", "s6", "s7"] [] [] [] 0).reply_text =
    "This recipe only has 7 steps." := by decide

example : (handle_user_command_headless "k" "Simple Garlic Pasta" "d"
    ["s1", "s2"] [] [] [] 0) =
    { handled := true, reply_text := "Next step:\n\n1. s1", advance_step := false,
      session_update := some { new_current_step := some 1 } } := by decide

/-- The characters an `x <digits>` input may contain. -/
def isXSpaceDigit (c : Char) : Bool := c = 'x' || c = ' ' || c.isDigit

/-! ## Concrete recipe data (the built-in recipes of `recipes.py` / `app.py`) -/

def twoRecipes : List (String × String) :=
  [("garlic_pasta", "Simple Garlic Pasta"), ("scrambled_eggs", "Soft Scrambled Eggs")]

def twoNames : String → String := fun k =>
  if k = "garlic_pasta" then "Simple Garlic Pasta"
  else if k = "scrambled_eggs" then "Soft Scrambled Eggs" else ""

def garlicSteps : List String :=
  ["Bring a large pot of salted water to a boil.",
   "Add pasta and cook until just shy of al dente (about 1 minute less than package instructions).",
   "While pasta cooks, gently warm olive oil in a pan over low heat.",
   "Add minced garlic to the oil and cook gently until fragrant, not browned.",
   "Reserve a cup of pasta water, then drain the pasta.",
   "Toss pasta with the garlic oil, a splash of pasta water, salt, and pepper.",
   "Adjust with more pasta water if needed, then finish with cheese and serve."]

def garlicIngredients : List String :=
  ["8 ounces dry spaghetti or other pasta",
   "Salt for the pasta water",
   "3 tablespoons olive oil",
   "3–4 cloves garlic, minced",
   "Freshly ground black pepper",
   "1/2 cup reserved pasta cooking water (as needed)",
   "Grated Parmesan or Pecorino cheese for serving"]

def eggSteps : List String :=
  ["Crack eggs into a bowl, add a pinch of salt, and whisk until fully combined.",
   "Heat a nonstick pan over low to medium-low heat and add a small knob of butter.",
   "Pour the eggs into the pan and let them sit for a few seconds until they just start to set at the edges.",
   "Use a spatula to gently push the eggs from the edges toward the center, forming soft curds.",
   "Continue slowly pushing and folding the eggs until they are mostly set but still slightly glossy and soft.",
   "Remove the pan from the heat; the eggs will finish cooking off the heat. Taste and adjust seasoning, then serve."]

def eggIngredients : List String :=
  ["3 large eggs",
   "Salt",
   "1–2 teaspoons butter",
   "Freshly ground black pepper",
   "Optional: 1–2 tablespoons milk or cream"]

/-! ## Basic lemmas about the string model -/

theorem pyIsSpace_iff {c : Char} : pyIsSpace c = true ↔
    c = ' ' ∨ c = '\t' ∨ c = '\n' ∨ c = '\r' ∨ c = '\x0b' ∨ c = '\x0c' := by
  simp [pyIsSpace, Bool.or_eq_true, decide_eq_true_iff]
  tauto

theorem pyIsSpace_false_of_isDigit {c : Char} (h : c.isDigit = true) : pyIsSpace c = false := by
  cases hs : pyIsSpace c with
  | false => rfl
  | true =>
    rcases pyIsSpace_iff.mp hs with rfl | rfl | rfl | rfl | rfl | rfl <;>
      exact absurd h (by decide)

theorem char_le_nine_of_isDigit {c : Char} (h : c.isDigit = true) : c ≤ '9' := by
  simp only [Char.isDigit, Bool.and_eq_true, decide_eq_true_eq] at h
  exact h.2

theorem pyLowerChar_of_isDigit {c : Char} (h : c.isDigit = true) : pyLowerChar c = c := by
  unfold pyLowerChar
  rw [if_neg]
  rintro ⟨h1, -⟩
  exact absurd (le_trans h1 (char_le_nine_of_isDigit h)) (by decide)

theorem pyLowerChar_of_pyIsSpace {c : Char} (h : pyIsSpace c = true) : pyLowerChar c = c := by
  rcases pyIsSpace_iff.mp h with rfl | rfl | rfl | rfl | rfl | rfl <;> decide

theorem map_id_of_all {α : Type} {f : α → α} {l : List α} (h : ∀ x ∈ l, f x = x) :
    l.map f = l := by
  induction l with
  | nil => rfl
  | cons a t ih =>
    simp only [List.map_cons, h a (List.mem_cons_self a t)]
    rw [ih fun x hx => h x (List.mem_cons_of_mem a hx)]

theorem dropWhile_cons_neg {α : Type} {p : α → Bool} {c : α} {l : List α} (h : p c = false) :
    (c :: l).dropWhile p = c :: l := by
  simp [List.dropWhile_cons, h]

theorem dropWhile_append_all {α : Type} {p : α → Bool} {l₁ l₂ : List α}
    (h : l₁.all p = true) : (l₁ ++ l₂).dropWhile p = l₂.dropWhile p := by
  induction l₁ with
  | nil => simp
  | cons a t ih =>
    simp only [List.all_cons, Bool.and_eq_true] at h
    simp [List.dropWhile_cons, h.1, ih h.2]

theorem dropWhile_all_nil {α : Type} {p : α → Bool} {l : List α} (h : l.all p = true) :
    l.dropWhile p = [] :=
  List.dropWhile_eq_nil_iff.mpr (by simpa [List.all_eq_true] using h)

theorem takeWhile_all_self {α : Type} {p : α → Bool} {l : List α} (h : l.all p = true) :
    l.takeWhile p = l :=
  List.takeWhile_eq_self_iff.mpr (by simpa [List.all_eq_true] using h)

theorem pyStripChars_sandwich (w₁ mid w₂ : List Char)
    (h1 : w₁.all pyIsSpace = true) (h2 : w₂.all pyIsSpace = true)
    (hh : ∀ c, mid.head? = some c → pyIsSpace c = false)
    (hl : ∀ c, mid.getLast? = some c → pyIsSpace c = false) :
    pyStripChars (w₁ ++ mid ++ w₂) = mid := by
  unfold pyStripChars
  rw [List.append_assoc, dropWhile_append_all h1]
  cases mid with
  | nil =>
    simp only [List.nil_append]
    rw [dropWhile_all_nil h2]
    rfl
  | cons m ms =>
    rw [show (m :: ms) ++ w₂ = m :: (ms ++ w₂) from rfl,
        dropWhile_cons_neg (hh m rfl)]
    rw [show m :: (ms ++ w₂) = (m :: ms) ++ w₂ from rfl, List.reverse_append,
        dropWhile_append_all (by simpa using h2)]
    cases hrev : (m :: ms).reverse with
    | nil => exact absurd hrev (by simp)
    | cons r rs =>
      have hr : (m :: ms).getLast? = some r := by
        rw [← List.head?_reverse, hrev]; rfl
      rw [dropWhile_cons_neg (hl r hr), ← hrev, List.reverse_reverse]

theorem infix_all {l₁ l₂ : List Char} {p : Char → Bool} (h : l₁ <:+: l₂)
    (h2 : l₂.all p = true) : l₁.all p = true := by
  obtain ⟨s, t, rfl⟩ := h
  simp only [List.all_append, Bool.and_eq_true] at h2
  exact h2.1.2

theorem pyContains_iff {hay sub : String} : pyContains hay sub = true ↔ sub.data <:+: hay.data := by
  simp [pyContains]

theorem pyContains_false_of_all {hay sub : String} {p : Char → Bool}
    (hall : hay.data.all p = true) (hsub : sub.data.all p = false) :
    pyContains hay sub = false := by
  rw [← Bool.not_eq_true, pyContains_iff]
  intro hin
  rw [infix_all hin hall] at hsub
  exact absurd hsub (by simp)

theorem pyStarts_iff {s pre : String} : pyStarts s pre = true ↔ pre.data <+: s.data := by
  simp [pyStarts]

theorem pyStarts_false_of_all {s pre : String} {p : Char → Bool}
    (hall : s.data.all p = true) (hpre : pre.data.all p = false) :
    pyStarts s pre = false := by
  rw [← Bool.not_eq_true, pyStarts_iff]
  intro hin
  rw [infix_all hin.isInfix hall] at hpre
  exact absurd hpre (by simp)

theorem str_ne_of_all {a b : String} {p : Char → Bool}
    (hb : b.data.all p = true) (ha : a.data.all p = false) : b ≠ a := by
  rintro rfl
  rw [hb] at ha
  exact absurd ha (by simp)

theorem beq_false_of_all {a b : String} {p : Char → Bool}
    (hb : b.data.all p = true) (ha : a.data.all p = false) : (a == b) = false := by
  rw [beq_eq_false_iff_ne]
  exact (str_ne_of_all hb ha).symm

theorem anyTrigger_false_of_all {triggers : List String} {lower : String} {p : Char → Bool}
    (hl : lower.data.all p = true)
    (ht : ∀ t ∈ triggers, t.data.all p = false) :
    anyTrigger triggers lower = false := by
  unfold anyTrigger
  rw [List.any_eq_false]
  intro phrase hmem
  rw [beq_false_of_all hl (ht phrase hmem), pyContains_false_of_all hl (ht phrase hmem)]
  simp

theorem contains_false_of_all {l : List String} {s : String} {p : Char → Bool}
    (hs : s.data.all p = true) (ht : ∀ t ∈ l, t.data.all p = false) :
    l.contains s = false := by
  rw [← Bool.not_eq_true, List.elem_iff]
  intro hmem
  exact absurd hs (by rw [ht s hmem]; exact Bool.false_ne_true)

theorem all_takeWhile {α : Type} (p : α → Bool) (l : List α) :
    (l.takeWhile p).all p = true := by
  induction l with
  | nil => rfl
  | cons a t ih =>
    rw [List.takeWhile_cons]
    cases ha : p a <;> simp [ha, ih]

theorem dropWhile_digits_self {ds : List Char} (h : ds.all Char.isDigit = true) :
    List.dropWhile pyIsSpace ds = ds := by
  cases ds with
  | nil => rfl
  | cons c t =>
    simp only [List.all_cons, Bool.and_eq_true] at h
    exact dropWhile_cons_neg (pyIsSpace_false_of_isDigit h.1)

theorem head?_not_space_of_digits {ds : List Char} (h : ds.all Char.isDigit = true) :
    ∀ c, ds.head? = some c → pyIsSpace c = false := by
  intro c hc
  cases ds with
  | nil => simp at hc
  | cons a t =>
    simp only [List.head?_cons, Option.some.injEq] at hc
    subst hc
    simp only [List.all_cons, Bool.and_eq_true] at h
    exact pyIsSpace_false_of_isDigit h.1

theorem getLast?_not_space_of_digits {ds : List Char} (h : ds.all Char.isDigit = true) :
    ∀ c, ds.getLast? = some c → pyIsSpace c = false := by
  intro c hc
  have hmem : c ∈ ds := List.mem_of_mem_getLast? hc
  rw [List.all_eq_true] at h
  exact pyIsSpace_false_of_isDigit (h c hmem)

/-- `"x " ++ d` for a nonempty digit string `d` is matched by the
`x <digits>` pattern, capturing the value of `d`. -/
theorem matchXNum_x_digits {d : String} (hne : d.data ≠ []) (hd : d.data.all Char.isDigit = true) :
    matchXNum ("x " ++ d) = some (digitsToNat d.data) := by
  have hdata : ("x " ++ d).data = 'x' :: ' ' :: d.data := by
    rw [String.data_append]; rfl
  unfold matchXNum
  rw [hdata]
  have hsp : pyIsSpace ' ' = true := by decide
  have hcond : ('x' : Char) = 'x' ∧ pyIsSpace ' ' = true := ⟨rfl, hsp⟩
  dsimp only
  rw [if_pos hcond, List.dropWhile_cons, if_pos hsp, dropWhile_digits_self hd,
      takeWhile_all_self hd, dropWhile_all_nil hd]
  simp [hne]

theorem matchXNumCore_x_digits {d : String} (hne : d.data ≠ [])
    (hd : d.data.all Char.isDigit = true) :
    matchXNumCore ("x " ++ d) = some (digitsToNat d.data) := by
  have hdata : ("x " ++ d).data = 'x' :: ' ' :: d.data := by
    rw [String.data_append]; rfl
  unfold matchXNumCore
  rw [hdata]
  have hsp : pyIsSpace ' ' = true := by decide
  have hcond : ('x' : Char) = 'x' ∧ pyIsSpace ' ' = true := ⟨rfl, hsp⟩
  dsimp only
  rw [if_pos hcond, List.dropWhile_cons, if_pos hsp, dropWhile_digits_self hd,
      takeWhile_all_self hd, dropWhile_all_nil hd]
  simp [hne]

/-- A purely digit string never matches the `x <...>` patterns. -/
theorem matchXNum_none_of_digits {ds : List Char} (h : ds.all Char.isDigit = true) :
    matchXNum ⟨ds⟩ = none := by
  match ds, h with
  | [], _ => rfl
  | [c], _ => rfl
  | c0 :: c :: rest, h =>
    have hc0 : c0.isDigit = true := by
      simp only [List.all_cons, Bool.and_eq_true] at h
      exact h.1
    have hx : ¬(c0 = 'x' ∧ pyIsSpace c = true) := by
      rintro ⟨rfl, -⟩
      exact absurd hc0 (by decide)
    unfold matchXNum
    simp only [if_neg hx]

theorem matchXNumCore_none_of_digits {ds : List Char} (h : ds.all Char.isDigit = true) :
    matchXNumCore ⟨ds⟩ = none := by
  match ds, h with
  | [], _ => rfl
  | [c], _ => rfl
  | c0 :: c :: rest, h =>
    have hc0 : c0.isDigit = true := by
      simp only [List.all_cons, Bool.and_eq_true] at h
      exact h.1
    have hx : ¬(c0 = 'x' ∧ pyIsSpace c = true) := by
      rintro ⟨rfl, -⟩
      exact absurd hc0 (by decide)
    unfold matchXNumCore
    simp only [if_neg hx]

theorem matchXTarget_none_of_digits {ds : List Char} (h : ds.all Char.isDigit = true) :
    matchXTarget ⟨ds⟩ = none := by
  match ds, h with
  | [], _ => rfl
  | [c], _ => rfl
  | c0 :: c :: rest, h =>
    have hc0 : c0.isDigit = true := by
      simp only [List.all_cons, Bool.and_eq_true] at h
      exact h.1
    have hx : ¬(c0 = 'x' ∧ pyIsSpace c = true) := by
      rintro ⟨rfl, -⟩
      exact absurd hc0 (by decide)
    unfold matchXTarget
    simp only [if_neg hx]

/-- A successful purely-numeric match determines the whole lowercased,
stripped input: it is exactly the digit run, whose value is the result. -/
theorem matchPureNum_some_shape {s : String} {n : Nat} (h : matchPureNum s = some n) :
    ∃ ds : List Char, ds ≠ [] ∧ ds.all Char.isDigit = true ∧ digitsToNat ds = n ∧
      (pyStrip (pyLower s)).data = ds := by
  simp only [matchPureNum] at h
  split at h
  case isFalse => exact absurd h (by simp)
  case isTrue hcond =>
    obtain ⟨hne, htail⟩ := hcond
    set t := List.dropWhile pyIsSpace s.data with ht
    set ds := List.takeWhile Char.isDigit t with hds
    refine ⟨ds, hne, all_takeWhile _ _, by injection h, ?_⟩
    have hw1 : (List.takeWhile pyIsSpace s.data).all pyIsSpace = true := all_takeWhile _ _
    have hdall : ds.all Char.isDigit = true := all_takeWhile _ _
    have hsplit : s.data = List.takeWhile pyIsSpace s.data ++ (ds ++ List.dropWhile Char.isDigit t) := by
      rw [hds, List.takeWhile_append_dropWhile, ht, List.takeWhile_append_dropWhile]
    have hmapfix : ∀ part : List Char, part.all pyIsSpace = true → part.map pyLowerChar = part := by
      intro part hp
      refine map_id_of_all fun x hx => pyLowerChar_of_pyIsSpace ?_
      rw [List.all_eq_true] at hp
      exact hp x hx
    have hmapd : ds.map pyLowerChar = ds := by
      refine map_id_of_all fun x hx => pyLowerChar_of_isDigit ?_
      rw [List.all_eq_true] at hdall
      exact hdall x hx
    show (pyStripChars ((pyLower s).data)) = ds
    have hlow : (pyLower s).data = s.data.map pyLowerChar := rfl
    rw [hlow, hsplit, List.map_append, List.map_append,
        hmapfix _ hw1, hmapd, hmapfix _ htail, ← List.append_assoc]
    exact pyStripChars_sandwich _ _ _ hw1 htail
      (head?_not_space_of_digits hdall) (getLast?_not_space_of_digits hdall)

/-! ## Substring lemmas for reply contents -/

theorem intercalate_go_data (as : List String) (acc s : String) :
    (String.intercalate.go acc s as).data =
      acc.data ++ (as.map fun a => s.data ++ a.data).flatten := by
  induction as generalizing acc with
  | nil => simp [String.intercalate.go]
  | cons a t ih =>
    rw [String.intercalate.go, ih]
    simp [String.data_append, List.append_assoc]

/-- Every member of `lines` appears inside `String.intercalate s lines`. -/
theorem mem_infix_intercalate {b : String} {lines : List String} (h : b ∈ lines) (s : String) :
    b.data <:+: (String.intercalate s lines).data := by
  cases lines with
  | nil => simp at h
  | cons a t =>
    rw [String.intercalate, intercalate_go_data]
    rcases List.mem_cons.mp h with rfl | hmem
    · exact ⟨[], _, rfl⟩
    · obtain ⟨l₁, l₂, rfl⟩ := List.append_of_mem hmem
      refine ⟨a.data ++ (l₁.map fun c => s.data ++ c.data).flatten ++ s.data,
              (l₂.map fun c => s.data ++ c.data).flatten, ?_⟩
      simp [List.map_append, List.flatten_append, List.append_assoc]

theorem str_infix_middle (x b y : String) : b.data <:+: (x ++ b ++ y).data :=
  ⟨x.data, y.data, by simp [String.data_append]⟩

theorem str_infix_suffix (x b : String) : b.data <:+: (x ++ b).data :=
  ⟨x.data, [], by simp [String.data_append]⟩

/-- Each original ingredient's text appears inside its display line of the
working ingredient list. -/
theorem ing_infix_working_line (recipe_subs : List (String × String))
    (strikes : List String) (ing : String) :
    ing.data <:+:
      ((fun i =>
        let display := match dictGetTruthy recipe_subs i with
          | some sub => sub ++ " (instead of " ++ i ++ ")"
          | none => i
        if strikes.contains i then "- ~~" ++ display ++ "~~" else "- " ++ display) ing).data := by
  dsimp only
  rcases hsub : dictGetTruthy recipe_subs ing with _ | sub
  · cases hstr : strikes.contains ing
    · simp only [hsub, hstr, Bool.false_eq_true, if_false]
      exact str_infix_suffix "- " ing
    · simp only [hsub, hstr, if_true]
      exact str_infix_middle "- ~~" ing "~~"
  · cases hstr : strikes.contains ing
    · simp only [hsub, hstr, Bool.false_eq_true, if_false]
      exact List.IsInfix.trans (str_infix_middle (sub ++ " (instead of ") ing ")")
        (str_infix_suffix "- " (sub ++ " (instead of " ++ ing ++ ")"))
    · simp only [hsub, hstr, if_true]
      exact List.IsInfix.trans (str_infix_middle (sub ++ " (instead of ") ing ")")
        (str_infix_middle "- ~~" (sub ++ " (instead of " ++ ing ++ ")") "~~")

/-! ## Shape of `x <digits>` inputs -/

theorem data_x_append (d : String) : ("x " ++ d).data = 'x' :: ' ' :: d.data := by
  rw [String.data_append]; rfl

theorem nat_max_zero (n : Nat) : Nat.max 0 n = n := by
  simp [Nat.max]

theorem all_imp {α : Type} {p q : α → Bool} {l : List α}
    (h : ∀ x, p x = true → q x = true) (hl : l.all p = true) : l.all q = true := by
  rw [List.all_eq_true] at hl ⊢
  exact fun x hx => h x (hl x hx)

theorem getLast?_x_digits {d : String} (hne : d.data ≠ [])
    (hd : d.data.all Char.isDigit = true) :
    ∀ c, ('x' :: ' ' :: d.data).getLast? = some c → pyIsSpace c = false := by
  intro c hc
  rw [← List.head?_reverse] at hc
  rw [show ('x' :: ' ' :: d.data).reverse = d.data.reverse ++ [' ', 'x'] from by simp] at hc
  cases hrev : d.data.reverse with
  | nil => exact absurd (List.reverse_eq_nil_iff.mp hrev) hne
  | cons a t =>
    rw [hrev] at hc
    simp only [List.cons_append, List.head?_cons, Option.some.injEq] at hc
    subst hc
    have hmem : a ∈ d.data := by
      have h1 : a ∈ d.data.reverse := by rw [hrev]; exact List.mem_cons_self _ _
      simpa using h1
    exact pyIsSpace_false_of_isDigit (List.all_eq_true.mp hd a hmem)

theorem pyLower_x_digits {d : String} (hd : d.data.all Char.isDigit = true) :
    pyLower ("x " ++ d) = "x " ++ d := by
  apply String.ext
  show ("x " ++ d).data.map pyLowerChar = ("x " ++ d).data
  rw [data_x_append]
  simp only [List.map_cons, List.cons.injEq]
  refine ⟨by decide, by decide, ?_⟩
  exact map_id_of_all fun x hx => pyLowerChar_of_isDigit (List.all_eq_true.mp hd x hx)

theorem pyStrip_x_digits {d : String} (hne : d.data ≠ [])
    (hd : d.data.all Char.isDigit = true) :
    pyStrip ("x " ++ d) = "x " ++ d := by
  apply String.ext
  show pyStripChars ("x " ++ d).data = ("x " ++ d).data
  rw [data_x_append]
  have h := pyStripChars_sandwich [] ('x' :: ' ' :: d.data) [] rfl rfl
    (fun c hc => by
      simp only [List.head?_cons, Option.some.injEq] at hc
      subst hc; decide)
    (getLast?_x_digits hne hd)
  simpa using h

theorem lower_x_digits {d : String} (hne : d.data ≠ [])
    (hd : d.data.all Char.isDigit = true) :
    pyStrip (pyLower ("x " ++ d)) = "x " ++ d := by
  rw [pyLower_x_digits hd, pyStrip_x_digits hne hd]

theorem x_append_ne {d t : String} (h : t.data.head? ≠ some 'x') : "x " ++ d ≠ t := by
  intro e
  apply h
  rw [← e, data_x_append]
  rfl

theorem x_digits_all {d : String} (hd : d.data.all Char.isDigit = true) :
    ("x " ++ d).data.all isXSpaceDigit = true := by
  rw [data_x_append]
  simp only [List.all_cons, Bool.and_eq_true]
  refine ⟨by decide, by decide, ?_⟩
  exact all_imp (fun x hx => by simp [isXSpaceDigit, hx]) hd

/-- Full evaluation of `core/commands.py` `handle_command` on `x <digits>`. -/
theorem handle_command_x_digits {d : String} (hne : d.data ≠ [])
    (hd : d.data.all Char.isDigit = true)
    (state : CookingState) (recipe_name : String) (ingredients steps : List String) :
    handle_command ("x " ++ d) state recipe_name ingredients steps =
      { handled := true
        reply := String.intercalate "\n"
          [(if 0 < Nat.max 0 (Nat.min (digitsToNat d.data) steps.length) then
              "Marked steps 1-" ++ toString (Nat.max 0 (Nat.min (digitsToNat d.data) steps.length)) ++
                " as complete."
            else "Reset to beginning."),
           "\n**All Steps:**\n",
           format_steps_list steps (Nat.max 0 (Nat.min (digitsToNat d.data) steps.length))]
        new_state := some { state with
          current_step := Nat.max 0 (Nat.min (digitsToNat d.data) steps.length) }
        advance_step := false } := by
  simp only [handle_command]
  rw [lower_x_digits hne hd]
  rw [if_neg (by rintro (h | h) <;> exact x_append_ne (by decide) h),
      if_neg (by rintro (h | h) <;> exact x_append_ne (by decide) h),
      if_neg (by rintro (h | h | h | h) <;> exact x_append_ne (by decide) h),
      matchXNumCore_x_digits hne hd]

/-- Full evaluation of the headless engine on `x <digits>`. -/
theorem headless_x_digits {d : String} (hne : d.data ≠ [])
    (hd : d.data.all Char.isDigit = true)
    (recipe_name rd : String) (steps ings : List String)
    (subs : List (String × String)) (strikes : List String) (cs : Nat) :
    handle_user_command_headless ("x " ++ d) recipe_name rd steps ings subs strikes cs =
      { handled := true
        reply_text := String.intercalate "\n"
          ([(if Nat.max 0 (Nat.min (digitsToNat d.data) steps.length) = 0 then
               "Okay, I\x27ve reset your step progress. You\x27re back at the beginning."
             else if steps.length ≤ Nat.max 0 (Nat.min (digitsToNat d.data) steps.length) then
               "Okay, I\x27ve marked all " ++ toString steps.length ++
                 " steps as done. You\x27ve completed the recipe!"
             else
               "Got it. I\x27ve marked steps 1 through " ++
                 toString (Nat.max 0 (Nat.min (digitsToNat d.data) steps.length)) ++
                 " as done. You\x27re now on step " ++
                 toString (Nat.max 0 (Nat.min (digitsToNat d.data) steps.length) + 1) ++ "."),
            "", "Here are all the steps with your updated progress:", ""] ++
           format_steps_with_progress_markdown steps
             (Nat.max 0 (Nat.min (digitsToNat d.data) steps.length)))
        advance_step := false
        session_update :=
          some (stepOnlyUpdate (Nat.max 0 (Nat.min (digitsToNat d.data) steps.length))) } := by
  simp only [handle_user_command_headless]
  rw [lower_x_digits hne hd]
  rw [anyTrigger_false_of_all (p := isXSpaceDigit) (x_digits_all hd)
        (by intro t ht; fin_cases ht <;> decide),
      if_neg Bool.false_ne_true,
      matchXNum_x_digits hne hd]
  rfl

/-- C1: for every state and every recipe, an input of the form `x <digits>` is
resolved by the mark-steps-done rule of both engines — the numeric pattern is
tested before the generic strike pattern and short-circuits it — so the
ingredient strikes are never touched by such an input: the core engine copies
`ingredient_strikes` unchanged into the new state, and the headless engine's
session update carries only a `new_current_step`. -/
theorem claim_C1_x_digits_marks_steps_not_strike {d : String}
    (hne : d.data ≠ []) (hd : d.data.all Char.isDigit = true)
    (state : CookingState) (recipe_name rd : String)
    (ingredients steps : List String)
    (subs : List (String × String)) (strikes : List String) (cs : Nat) :
    (handle_command ("x " ++ d) state recipe_name ingredients steps).handled = true ∧
    (handle_command ("x " ++ d) state recipe_name ingredients steps).new_state =
      some { state with
        current_step := Nat.max 0 (Nat.min (digitsToNat d.data) steps.length) } ∧
    (handle_user_command_headless ("x " ++ d) recipe_name rd steps ingredients
        subs strikes cs).handled = true ∧
    (handle_user_command_headless ("x " ++ d) recipe_name rd steps ingredients
        subs strikes cs).session_update =
      some (stepOnlyUpdate (Nat.max 0 (Nat.min (digitsToNat d.data) steps.length))) := by
  rw [handle_command_x_digits hne hd, headless_x_digits hne hd]
  exact ⟨rfl, rfl, rfl, rfl⟩

/-- Witness for C1 at `"x 3"`: the ingredient named by digits is never struck;
the dispatch marks steps instead. -/
theorem claim_C1_witness :
    (handle_command "x 3" { recipe_key := "garlic_pasta" } "Simple Garlic Pasta"
        garlicIngredients garlicSteps).handled = true ∧
    (handle_command "x 3" { recipe_key := "garlic_pasta" } "Simple Garlic Pasta"
        garlicIngredients garlicSteps).new_state =
      some { recipe_key := "garlic_pasta", current_step := 3 } ∧
    (handle_user_command_headless "x 3" "Simple Garlic Pasta" "d" garlicSteps
        garlicIngredients [] ["Salt for the pasta water"] 0).session_update =
      some (stepOnlyUpdate 3) := by
  have h := claim_C1_x_digits_marks_steps_not_strike (d := "3") (by decide) (by decide)
    { recipe_key := "garlic_pasta" } "Simple Garlic Pasta" "d"
    garlicIngredients garlicSteps [] ["Salt for the pasta water"] 0
  exact ⟨h.1, h.2.1.trans (by decide), h.2.2.2.trans (by decide)⟩

/-- C5: `x N` sets `current_step` to `N` clamped into `[0, step_count]`
(on naturals the clamp is `min N step_count`), and leaves every other state
field unchanged, in both engines. -/
theorem claim_C5_x_n_clamps {d : String}
    (hne : d.data ≠ []) (hd : d.data.all Char.isDigit = true)
    (state : CookingState) (recipe_name rd : String)
    (ingredients steps : List String)
    (subs : List (String × String)) (strikes : List String) (cs : Nat) :
    (handle_command ("x " ++ d) state recipe_name ingredients steps).new_state =
      some { state with current_step := Nat.min (digitsToNat d.data) steps.length } ∧
    (handle_command ("x " ++ d) state recipe_name ingredients steps).handled = true ∧
    (handle_user_command_headless ("x " ++ d) recipe_name rd steps ingredients
        subs strikes cs).session_update =
      some (stepOnlyUpdate (Nat.min (digitsToNat d.data) steps.length)) ∧
    (handle_user_command_headless ("x " ++ d) recipe_name rd steps ingredients
        subs strikes cs).handled = true ∧
    Nat.min (digitsToNat d.data) steps.length ≤ steps.length := by
  rw [handle_command_x_digits hne hd, headless_x_digits hne hd,
      nat_max_zero ((digitsToNat d.data).min steps.length)]
  exact ⟨rfl, rfl, rfl, rfl, Nat.min_le_right _ _⟩

/-- Witness for C5: `"x 999"` on the 7-step garlic-pasta recipe clamps to 7,
and `"x 0"` resets to 0, with the other fields untouched. -/
theorem claim_C5_witness :
    (handle_command "x 999" { recipe_key := "garlic_pasta", current_step := 2, ingredient_subs := [], ingredient_strikes := ["Salt for the pasta water"] } "Simple Garlic Pasta" garlicIngredients garlicSteps).new_state = some { recipe_key := "garlic_pasta", current_step := 7, ingredient_subs := [], ingredient_strikes := ["Salt for the pasta water"] } ∧
    (handle_user_command_headless "x 0" "Simple Garlic Pasta" "d" garlicSteps
        garlicIngredients [] [] 5).session_update =
      some (stepOnlyUpdate 0) := by
  have h1 := claim_C5_x_n_clamps (d := "999") (by decide) (by decide)
    { recipe_key := "garlic_pasta", current_step := 2, ingredient_subs := [], ingredient_strikes := ["Salt for the pasta water"] } "Simple Garlic Pasta" "d"
    garlicIngredients garlicSteps [] [] 0
  have h2 := claim_C5_x_n_clamps (d := "0") (by decide) (by decide)
    { recipe_key := "garlic_pasta" } "Simple Garlic Pasta" "d"
    garlicIngredients garlicSteps [] [] 5
  exact ⟨h1.1.trans (by decide), h2.2.2.1.trans (by decide)⟩

set_option maxHeartbeats 1000000 in
/-- C10: every branch of the core engine returns `advance_step = false` —
handled or not — and so does every branch of the headless engine; advancement
is communicated only through the returned state / session update, so a caller
applying only `advance_step` never advances on an engine-handled command. -/
theorem claim_C10_advance_step_always_false
    (user_input : String) (state : CookingState) (recipe_name : String)
    (ingredients steps : List String)
    (rd : String) (rsteps rings : List String) (rsubs : List (String × String))
    (strikes : List String) (cs : Nat) :
    (handle_command user_input state recipe_name ingredients steps).advance_step = false ∧
    (handle_user_command_headless user_input recipe_name rd rsteps rings
        rsubs strikes cs).advance_step = false := by
  constructor
  · unfold handle_command
    dsimp only
    repeat' split
    all_goals rfl
  · unfold handle_user_command_headless
    dsimp only
    repeat' split
    all_goals rfl

/-! ## Claim C2: the reset command -/

theorem applySessionUpdate_reset (subs : List (String × String))
    (strikes : List String) (cs : Nat) :
    applySessionUpdate { new_current_step := some 0, strikes_to_remove := strikes }
      subs strikes cs = (subs, [], 0) := by
  unfold applySessionUpdate listUnion listDiff
  refine Prod.ext ?_ (Prod.ext ?_ rfl)
  · show subs.filter _ ++ [] = subs
    rw [List.append_nil]
    rw [List.filter_eq_self]
    intro p _
    rfl
  · show (strikes.filter _ ++ List.filter _ []) = []
    rw [List.filter_nil, List.append_nil, List.filter_eq_nil_iff]
    intro a ha
    simp [List.contains, List.elem_iff, ha]

/-- C2 counterexample: dispatching `"clear"` through the headless engine with a
nonempty `ingredient_subs`, a nonempty `ingredient_strikes` and a nonzero
`current_step` removes the strikes and zeroes the step, but the session update
carries no substitution changes, so the resulting state still holds the
substitution — `ingredient_subs` is not empty, contradicting the claim. -/
theorem claim_C2_counterexample :
    (handle_user_command_headless "clear" "Soft Scrambled Eggs" "d" eggSteps
        eggIngredients [("3 large eggs", "egg substitute")] ["Salt"] 4).session_update =
      some { new_current_step := some 0, strikes_to_add := [], strikes_to_remove := ["Salt"], subs_to_add := [], subs_to_remove := [] } ∧
    applySessionUpdate { new_current_step := some 0, strikes_to_remove := ["Salt"] }
        [("3 large eggs", "egg substitute")] ["Salt"] 4 =
      ([("3 large eggs", "egg substitute")], [], 0) ∧
    ([("3 large eggs", "egg substitute")] : List (String × String)) ≠ [] := by
  exact ⟨by decide, by decide, by decide⟩

/-- C2 (amended): an input matching a reset phrase yields, in the headless
engine, a handled result whose session update zeroes the step and removes
every current strike but carries no substitution change, so the applied state
keeps `ingredient_subs` exactly as it was; in the Streamlit engine
(`commands.py`), the same phrases call `reset_conversation_for_recipe`, which
rebinds the same recipe key with `current_step = 0` and empty per-recipe
substitutions and strikes. -/
theorem claim_C2_reset_clears_strikes_and_step
    (user_input recipe_name rd : String) (steps ings : List String)
    (subs : List (String × String)) (strikes : List String) (cs : Nat)
    (items : List (String × String)) (lib_name : String → String) (ss : StSessionState)
    (h : anyTrigger start_over_triggers (pyStrip (pyLower user_input)) = true)
    (hcancel : ¬((pyStrip (pyLower user_input) = "cancel" ∨
        pyStrip (pyLower user_input) = "exit" ∨
        pyStrip (pyLower user_input) = "stop picking") ∧ ss.pending_recipe_pick = true)) :
    ((handle_user_command_headless user_input recipe_name rd steps ings subs strikes cs).handled
        = true ∧
     (handle_user_command_headless user_input recipe_name rd steps ings subs strikes cs).session_update
        = some { new_current_step := some 0, strikes_to_add := [], strikes_to_remove := strikes, subs_to_add := [], subs_to_remove := [] } ∧
     applySessionUpdate { new_current_step := some 0, strikes_to_remove := strikes }
        subs strikes cs = (subs, [], 0)) ∧
    (handle_user_command user_input recipe_name rd steps ings subs items lib_name ss =
        (reset_conversation_for_recipe lib_name ss.recipe_key, .rerun) ∧
     (reset_conversation_for_recipe lib_name ss.recipe_key).current_step = 0 ∧
     (reset_conversation_for_recipe lib_name ss.recipe_key).ingredient_subs =
        [(ss.recipe_key, [])] ∧
     (reset_conversation_for_recipe lib_name ss.recipe_key).ingredient_strikes =
        [(ss.recipe_key, [])]) := by
  constructor
  · simp only [handle_user_command_headless]
    rw [h]
    simp only [if_pos rfl]
    exact ⟨rfl, rfl, applySessionUpdate_reset subs strikes cs⟩
  · refine ⟨?_, rfl, rfl, rfl⟩
    simp only [handle_user_command]
    rw [if_neg hcancel, h]
    simp

/-- Witness for C2 at `"clear"`. -/
theorem claim_C2_witness :
    (handle_user_command_headless "clear" "Soft Scrambled Eggs" "d" eggSteps
        eggIngredients [("3 large eggs", "tofu")] ["Salt"] 4).handled = true ∧
    applySessionUpdate { new_current_step := some 0, strikes_to_remove := ["Salt"] }
        [("3 large eggs", "tofu")] ["Salt"] 4 = ([("3 large eggs", "tofu")], [], 0) ∧
    handle_user_command "clear" "Soft Scrambled Eggs" "d" eggSteps eggIngredients []
        twoRecipes twoNames { recipe_key := "scrambled_eggs" } =
      (reset_conversation_for_recipe twoNames "scrambled_eggs", .rerun) := by
  have h := claim_C2_reset_clears_strikes_and_step "clear" "Soft Scrambled Eggs" "d"
    eggSteps eggIngredients [("3 large eggs", "tofu")] ["Salt"] 4 twoRecipes twoNames
    { recipe_key := "scrambled_eggs" } (by decide) (by decide)
  exact ⟨h.1.1, h.1.2.2, h.2.1⟩

/-! ## Claim C6: unrecognized free text -/

/-- C6 (code bug): the spec's unrecognized free-text input is in fact handled
by the headless engine: the step-listing rule checks the single-letter trigger
`"s"` with substring semantics (`phrase in lower`), which matches the letter
`s` inside the input, so the engine returns `handled = true` with a full steps
listing instead of `handled = false` with an empty reply. The core engine
(`core/commands.py`), which compares `"s"` for equality only, returns
`handled = false` with an empty reply and no state change, as the claim says. -/
theorem claim_C6_s_substring_bug :
    (handle_user_command_headless "I just added the garlic, what\x27s the smell like?"
        "Simple Garlic Pasta" "d" garlicSteps garlicIngredients [] [] 0).handled = true ∧
    pyContains
      (handle_user_command_headless "I just added the garlic, what\x27s the smell like?"
        "Simple Garlic Pasta" "d" garlicSteps garlicIngredients [] [] 0).reply_text
      "Here are all the steps for this recipe:" = true ∧
    (handle_user_command_headless "I just added the garlic, what\x27s the smell like?"
        "Simple Garlic Pasta" "d" garlicSteps garlicIngredients [] [] 0).session_update = none ∧
    handle_command "I just added the garlic, what\x27s the smell like?"
        { recipe_key := "garlic_pasta" } "Simple Garlic Pasta" garlicIngredients garlicSteps =
      { handled := false, reply := "", new_state := none, advance_step := false } := by
  exact ⟨by decide, by decide, by decide, by decide⟩

/-! ## Claim C8: purely numeric input -/

theorem pyStrip_digits {ds : List Char} (h : ds.all Char.isDigit = true) :
    pyStrip ⟨ds⟩ = ⟨ds⟩ := by
  apply String.ext
  show pyStripChars ds = ds
  have h2 := pyStripChars_sandwich [] ds [] rfl rfl
    (head?_not_space_of_digits h) (getLast?_not_space_of_digits h)
  simpa using h2

theorem detect_none_of_digits {ds : List Char} (h : ds.all Char.isDigit = true) :
    detect_strike_command ⟨ds⟩ = none := by
  unfold detect_strike_command
  have h1 : strike_leaders.find? (fun q => pyStarts ⟨ds⟩ q) = none := by
    rw [List.find?_eq_none]
    intro q hq
    rw [pyStarts_false_of_all (p := Char.isDigit) h (by fin_cases hq <;> decide)]
    simp
  have h2 : unstrike_leaders.find? (fun q => pyStarts ⟨ds⟩ q) = none := by
    rw [List.find?_eq_none]
    intro q hq
    rw [pyStarts_false_of_all (p := Char.isDigit) h (by fin_cases hq <;> decide)]
    simp
  rw [h1, h2]

/-- Full evaluation of the headless engine on purely numeric input: control
falls through every earlier rule to the numeric branch. -/
theorem headless_pure_num_eval {user_input : String} {n : Nat}
    (h : matchPureNum user_input = some n)
    (recipe_name rd : String) (steps ings : List String)
    (subs : List (String × String)) (strikes : List String) (cs : Nat) :
    handle_user_command_headless user_input recipe_name rd steps ings subs strikes cs =
      if 0 ≤ (n : Int) - 1 ∧ (n : Int) - 1 < (steps.length : Int) then
        { handled := true
          reply_text := toString n ++ ". " ++ steps.getD ((n : Int) - 1).toNat ""
          advance_step := false
          session_update := none }
      else
        { handled := true
          reply_text := "This recipe only has " ++ toString steps.length ++ " steps."
          advance_step := false
          session_update := none } := by
  obtain ⟨ds, hne, hdig, hval, hdata⟩ := matchPureNum_some_shape h
  have hlow : pyStrip (pyLower user_input) = ⟨ds⟩ := String.ext hdata
  have hing : anyTrigger ingredient_triggers ⟨ds⟩ = false :=
    anyTrigger_false_of_all (p := Char.isDigit) hdig (by intro t ht; fin_cases ht <;> decide)
  simp only [handle_user_command_headless]
  rw [hlow]
  rw [anyTrigger_false_of_all (p := Char.isDigit) hdig
        (by intro t ht; fin_cases ht <;> decide),
      if_neg Bool.false_ne_true,
      matchXNum_none_of_digits hdig,
      contains_false_of_all (p := Char.isDigit) hdig
        (by intro t ht; fin_cases ht <;> decide),
      if_neg Bool.false_ne_true,
      pyStrip_digits hdig,
      detect_none_of_digits hdig]
  rw [if_neg (by
        rintro (h' | h')
        · exact str_ne_of_all (p := Char.isDigit) hdig (by decide) h'
        · rw [hing] at h'; exact Bool.false_ne_true h')]
  rw [@anyTrigger_false_of_all step_triggers ⟨ds⟩ Char.isDigit hdig
        (by intro t ht; fin_cases ht <;> decide),
      if_neg Bool.false_ne_true,
      if_neg (str_ne_of_all (p := Char.isDigit) hdig (by decide)),
      h]

/-- C8 (amended, headless engine): every purely numeric input `N` (not in pick
mode — the headless engine has no pick mode) is handled with `session_update =
none`: in range `1 ≤ N ≤ step_count` the reply contains step `N`'s text, and
out of range the reply reports the recipe's step count; `handled` is never
false. (The core engine deviates: see the counterexample.) -/
theorem claim_C8_numeric_always_handled (user_input : String) (n : Nat)
    (h : matchPureNum user_input = some n)
    (recipe_name rd : String) (steps ings : List String)
    (subs : List (String × String)) (strikes : List String) (cs : Nat) :
    (handle_user_command_headless user_input recipe_name rd steps ings subs strikes cs).handled
      = true ∧
    (handle_user_command_headless user_input recipe_name rd steps ings subs strikes cs).session_update
      = none ∧
    (1 ≤ n ∧ n ≤ steps.length →
      pyContains
        (handle_user_command_headless user_input recipe_name rd steps ings subs strikes cs).reply_text
        (steps.getD (n - 1) "") = true) ∧
    (¬(1 ≤ n ∧ n ≤ steps.length) →
      (handle_user_command_headless user_input recipe_name rd steps ings subs strikes cs).reply_text
        = "This recipe only has " ++ toString steps.length ++ " steps.") := by
  rw [headless_pure_num_eval h]
  by_cases hc : 0 ≤ (n : Int) - 1 ∧ (n : Int) - 1 < (steps.length : Int)
  · rw [if_pos hc]
    refine ⟨rfl, rfl, fun _ => ?_, fun hr => absurd (by omega) hr⟩
    have ht : ((n : Int) - 1).toNat = n - 1 := by omega
    rw [ht]
    exact pyContains_iff.mpr (str_infix_suffix (toString n ++ ". ") (steps.getD (n - 1) ""))
  · rw [if_neg hc]
    exact ⟨rfl, rfl, fun hr => absurd (by omega) hc, fun _ => rfl⟩

/-- C8 counterexample: the claim cites `core/commands.py` as well, but there an
out-of-range numeric input is NOT handled: `"999"` on the 7-step garlic-pasta
recipe falls through every rule and returns `handled = false` with an empty
reply (deferring to the LLM fallback), instead of a step-count reply. -/
theorem claim_C8_counterexample :
    handle_command "999" { recipe_key := "garlic_pasta" } "Simple Garlic Pasta"
        garlicIngredients garlicSteps =
      { handled := false, reply := "", new_state := none, advance_step := false } := by
  decide

/-- Witness for C8: `"3"` shows step 3 and `"999"` reports the step count. -/
theorem claim_C8_witness :
    (handle_user_command_headless "3" "Simple Garlic Pasta" "d" garlicSteps
        garlicIngredients [] [] 0).handled = true ∧
    pyContains (handle_user_command_headless "3" "Simple Garlic Pasta" "d" garlicSteps
        garlicIngredients [] [] 0).reply_text (garlicSteps.getD 2 "") = true ∧
    (handle_user_command_headless "999" "Simple Garlic Pasta" "d" garlicSteps
        garlicIngredients [] [] 0).reply_text = "This recipe only has 7 steps." := by
  have h1 := claim_C8_numeric_always_handled "3" 3 (by decide)
    "Simple Garlic Pasta" "d" garlicSteps garlicIngredients [] [] 0
  have h2 := claim_C8_numeric_always_handled "999" 999 (by decide)
    "Simple Garlic Pasta" "d" garlicSteps garlicIngredients [] [] 0
  refine ⟨h1.1, ?_, ?_⟩
  · have := h1.2.2.1 (by decide)
    exact this
  · have := h2.2.2.2 (by decide)
    rw [this]
    decide

/-! ## Claim C4: the advance rule -/

theorem nat_min_eq_left {a b : Nat} (h : a ≤ b) : Nat.min a b = a := by
  simp only [Nat.min]
  omega

/-- Full evaluation of the headless engine when the lowercased, trimmed input
is one of the seven confirmation words. -/
theorem headless_advance_eval {user_input : String}
    (h : next_step_triggers.contains (pyStrip (pyLower user_input)) = true)
    (recipe_name rd : String) (steps ings : List String)
    (subs : List (String × String)) (strikes : List String) (cs : Nat) :
    handle_user_command_headless user_input recipe_name rd steps ings subs strikes cs =
      if cs < steps.length then
        { handled := true
          reply_text := "Next step:\n\n" ++ toString (cs + 1) ++ ". " ++ steps.getD cs ""
          advance_step := false
          session_update := some (stepOnlyUpdate (Nat.min (cs + 1) steps.length)) }
      else
        { handled := true
          reply_text := "You\x27ve already completed all the steps in this recipe."
          advance_step := false
          session_update := some {} } := by
  have hmem : pyStrip (pyLower user_input) ∈ next_step_triggers := List.elem_iff.mp h
  simp only [next_step_triggers, List.mem_cons, List.not_mem_nil, or_false] at hmem
  unfold handle_user_command_headless
  rcases hmem with h' | h' | h' | h' | h' | h' | h' <;> rw [h'] <;> rfl

/-- Full evaluation of the core engine when the lowercased, trimmed input is
one of its four confirmation words. -/
theorem core_advance_eval {user_input : String} {state : CookingState}
    (h : pyStrip (pyLower user_input) = "k" ∨ pyStrip (pyLower user_input) = "ok" ∨
         pyStrip (pyLower user_input) = "next" ∨ pyStrip (pyLower user_input) = "done")
    (recipe_name : String) (ingredients steps : List String) :
    handle_command user_input state recipe_name ingredients steps =
      if steps.length ≤ state.current_step then
        { handled := true, reply := "You\x27ve completed all steps! 🎉",
          new_state := none, advance_step := false }
      else
        { handled := true
          reply := "**Step " ++ toString (state.current_step + 1) ++ ":**\n\n" ++
            steps.getD state.current_step ""
          new_state := some { state with current_step := state.current_step + 1 }
          advance_step := false } := by
  unfold handle_command
  rcases h with h' | h' | h' | h' <;> rw [h'] <;> rfl

/-- C4 (amended): the advance rule matches the lowercased, whitespace-trimmed
input exactly against the confirmation set (`k`, `ok`, `okay`, `next`,
`next step`, `done`, `finished` in the headless engine; only `k`, `ok`,
`next`, `done` in the core engine); punctuation is not stripped. When the
rule fires with `current_step < step_count`, `current_step` is incremented by
exactly one and the reply contains the step the user is now on; otherwise the
state is unchanged and the reply says the recipe is already complete. -/
theorem claim_C4_advance_rule (user_input : String)
    (recipe_name rd : String) (steps ings : List String)
    (subs : List (String × String)) (strikes : List String) (cs : Nat)
    (state : CookingState)
    (h : next_step_triggers.contains (pyStrip (pyLower user_input)) = true) :
    ((cs < steps.length →
        (handle_user_command_headless user_input recipe_name rd steps ings subs strikes cs).session_update
          = some (stepOnlyUpdate (cs + 1)) ∧
        pyContains
          (handle_user_command_headless user_input recipe_name rd steps ings subs strikes cs).reply_text
          (steps.getD cs "") = true ∧
        (handle_user_command_headless user_input recipe_name rd steps ings subs strikes cs).handled
          = true) ∧
     (steps.length ≤ cs →
        handle_user_command_headless user_input recipe_name rd steps ings subs strikes cs =
          { handled := true
            reply_text := "You\x27ve already completed all the steps in this recipe."
            advance_step := false
            session_update := some {} })) ∧
    ((pyStrip (pyLower user_input) = "k" ∨ pyStrip (pyLower user_input) = "ok" ∨
      pyStrip (pyLower user_input) = "next" ∨ pyStrip (pyLower user_input) = "done") →
      (state.current_step < steps.length →
        (handle_command user_input state recipe_name ings steps).new_state =
          some { state with current_step := state.current_step + 1 } ∧
        pyContains (handle_command user_input state recipe_name ings steps).reply
          (steps.getD state.current_step "") = true ∧
        (handle_command user_input state recipe_name ings steps).handled = true) ∧
      (steps.length ≤ state.current_step →
        handle_command user_input state recipe_name ings steps =
          { handled := true, reply := "You\x27ve completed all steps! 🎉",
            new_state := none, advance_step := false })) := by
  constructor
  · rw [headless_advance_eval h]
    constructor
    · intro hcs
      rw [if_pos hcs, nat_min_eq_left (by omega)]
      refine ⟨rfl, ?_, rfl⟩
      exact pyContains_iff.mpr
        (str_infix_suffix ("Next step:\n\n" ++ toString (cs + 1) ++ ". ") (steps.getD cs ""))
    · intro hcs
      rw [if_neg (by omega)]
  · intro h4
    rw [core_advance_eval h4]
    constructor
    · intro hcs
      rw [if_neg (by omega)]
      refine ⟨rfl, ?_, rfl⟩
      exact pyContains_iff.mpr
        (str_infix_suffix ("**Step " ++ toString (state.current_step + 1) ++ ":**\n\n")
          (steps.getD state.current_step ""))
    · intro hcs
      rw [if_pos hcs]

/-- C4 counterexample: the claim says matching is punctuation-insensitive and
quantifies over the full seven-word set for both cited engines, but `"ok."`
is not matched by any rule of the headless engine (the advance rule does not
fire, nothing is handled, the state is unchanged), and `"okay"` is not
matched by the core engine, whose set is only k / ok / next / done. -/
theorem claim_C4_counterexample :
    handle_user_command_headless "ok." "Simple Garlic Pasta" "d" garlicSteps
        garlicIngredients [] [] 0 =
      { handled := false, reply_text := "", advance_step := false, session_update := none } ∧
    handle_command "okay" { recipe_key := "garlic_pasta" } "Simple Garlic Pasta"
        garlicIngredients garlicSteps =
      { handled := false, reply := "", new_state := none, advance_step := false } := by
  exact ⟨by decide, by decide⟩

/-- Witness for C4: `"K"` from a fresh state advances to step 1 and replies
with the text at index 0; `"done"` at the end replies that the recipe is
complete and leaves the session unchanged. -/
theorem claim_C4_witness :
    (handle_user_command_headless "K" "Simple Garlic Pasta" "d" garlicSteps
        garlicIngredients [] [] 0).session_update = some (stepOnlyUpdate 1) ∧
    pyContains (handle_user_command_headless "K" "Simple Garlic Pasta" "d" garlicSteps
        garlicIngredients [] [] 0).reply_text (garlicSteps.getD 0 "") = true ∧
    handle_user_command_headless "done" "Simple Garlic Pasta" "d" garlicSteps
        garlicIngredients [] [] 7 =
      { handled := true
        reply_text := "You\x27ve already completed all the steps in this recipe."
        advance_step := false
        session_update := some {} } ∧
    (handle_command "ok" { recipe_key := "garlic_pasta" } "Simple Garlic Pasta"
        garlicIngredients garlicSteps).new_state =
      some { recipe_key := "garlic_pasta", current_step := 1 } := by
  have h1 := claim_C4_advance_rule "K" "Simple Garlic Pasta" "d"
    garlicSteps garlicIngredients [] [] 0 { recipe_key := "garlic_pasta" } (by decide)
  have h2 := claim_C4_advance_rule "done" "Simple Garlic Pasta" "d"
    garlicSteps garlicIngredients [] [] 7 { recipe_key := "garlic_pasta" } (by decide)
  have h3 := claim_C4_advance_rule "ok" "Simple Garlic Pasta" "d"
    garlicSteps garlicIngredients [] [] 0 { recipe_key := "garlic_pasta" } (by decide)
  refine ⟨(h1.1.1 (by decide)).1, (h1.1.1 (by decide)).2.1, h2.1.2 (by decide), ?_⟩
  have h4 := (h3.2 (by decide)).1 (by decide)
  exact h4.1.trans (by decide)

/-! ## Claim C3: strike / unstrike matching -/

theorem mem_matching_keys {ings : List String} {subs : List (String × String)}
    {target ing : String} :
    ing ∈ matching_keys ings subs target ↔
      ing ∈ ings ∧
      pyContains (pyLower ing ++
        (match dictGetTruthy subs ing with
         | some sub => " " ++ pyLower sub
         | none => "")) (pyLower target) = true := by
  unfold matching_keys
  exact List.mem_filter

/-- C3 (amended, headless engine): for an input recognised as a strike or
unstrike command (a leader prefix with a nonempty target) that the earlier
reset / mark-steps / advance rules do not capture, the affected set is exactly
`matching_keys`: the ingredients whose combined searchable text (lowercased
original plus its truthy substitute name, if any) contains the lowercased
target as a substring; all of them are struck (`strikes_to_add`) or unstruck
(`strikes_to_remove`) in one session update; and when none matches, the
session update is `none` (state unchanged) and the reply lists every
ingredient. The core engine differs: its only strike leader is `x ` and it
searches the original text only, so `86 EGGS` is not even handled there (see
the counterexample). -/
theorem claim_C3_strike_affects_exactly_matches (user_input : String)
    (recipe_name rd : String) (steps ings : List String)
    (subs : List (String × String)) (strikes : List String) (cs : Nat)
    (is_strike : Bool) (target : String)
    (h1 : anyTrigger start_over_triggers (pyStrip (pyLower user_input)) = false)
    (h2 : matchXNum (pyStrip (pyLower user_input)) = none)
    (h3 : next_step_triggers.contains (pyStrip (pyLower user_input)) = false)
    (h4 : detect_strike_command (pyStrip (pyStrip (pyLower user_input))) =
      some (is_strike, target))
    (h5 : target ≠ "") :
    (∀ ing, ing ∈ matching_keys ings subs target ↔
      ing ∈ ings ∧
      pyContains (pyLower ing ++
        (match dictGetTruthy subs ing with
         | some sub => " " ++ pyLower sub
         | none => "")) (pyLower target) = true) ∧
    (matching_keys ings subs target = [] →
      (handle_user_command_headless user_input recipe_name rd steps ings subs strikes cs).handled
        = true ∧
      (handle_user_command_headless user_input recipe_name rd steps ings subs strikes cs).session_update
        = none ∧
      (∀ ing ∈ ings,
        pyContains
          (handle_user_command_headless user_input recipe_name rd steps ings subs strikes cs).reply_text
          ing = true)) ∧
    (matching_keys ings subs target ≠ [] →
      (handle_user_command_headless user_input recipe_name rd steps ings subs strikes cs).handled
        = true ∧
      (handle_user_command_headless user_input recipe_name rd steps ings subs strikes cs).session_update
        = some (if is_strike then { strikes_to_add := matching_keys ings subs target }
                else { strikes_to_remove := matching_keys ings subs target })) := by
  refine ⟨fun ing => mem_matching_keys, ?_⟩
  simp only [handle_user_command_headless]
  rw [h1, if_neg Bool.false_ne_true, h2, h3, if_neg Bool.false_ne_true, h4]
  dsimp only
  rw [if_neg h5]
  constructor
  · intro hm
    rw [if_pos hm]
    refine ⟨rfl, rfl, fun ing hing => ?_⟩
    apply pyContains_iff.mpr
    refine List.IsInfix.trans (ing_infix_working_line subs strikes ing) ?_
    apply mem_infix_intercalate
    refine List.mem_append_right _ ?_
    exact List.mem_map_of_mem _ hing
  · intro hm
    rw [if_neg hm]
    cases is_strike
    · rw [if_neg Bool.false_ne_true]
      exact ⟨rfl, rfl⟩
    · rw [if_pos rfl]
      exact ⟨rfl, rfl⟩

/-- C3 counterexample: against the cited core engine, `"86 EGGS"` is not a
strike command at all — with ingredient `"3 large eggs"` present, the dispatch
returns `handled = false`, an empty reply and no state change, so the
ingredient is not struck. -/
theorem claim_C3_counterexample :
    handle_command "86 EGGS" { recipe_key := "scrambled_eggs" } "Soft Scrambled Eggs"
        eggIngredients eggSteps =
      { handled := false, reply := "", new_state := none, advance_step := false } := by
  decide

/-- Witness for C3: for ingredient `"3 large eggs"`, both `"x eggs"` and
`"86 EGGS"` strike it (and only it) in the headless engine, and an unmatched
target leaves the state unchanged with the reply listing the ingredients. -/
theorem claim_C3_witness :
    (handle_user_command_headless "x eggs" "Soft Scrambled Eggs" "d" eggSteps
        ["3 large eggs", "Salt"] [] [] 0).session_update =
      some { strikes_to_add := ["3 large eggs"] } ∧
    (handle_user_command_headless "86 EGGS" "Soft Scrambled Eggs" "d" eggSteps
        ["3 large eggs", "Salt"] [] [] 0).session_update =
      some { strikes_to_add := ["3 large eggs"] } ∧
    (handle_user_command_headless "x quinoa" "Soft Scrambled Eggs" "d" eggSteps
        ["3 large eggs", "Salt"] [] [] 0).session_update = none ∧
    pyContains (handle_user_command_headless "x quinoa" "Soft Scrambled Eggs" "d" eggSteps
        ["3 large eggs", "Salt"] [] [] 0).reply_text "3 large eggs" = true := by
  have h1 := claim_C3_strike_affects_exactly_matches "x eggs"
    "Soft Scrambled Eggs" "d" eggSteps ["3 large eggs", "Salt"] [] [] 0
    true "eggs"
    (by decide) (by decide) (by decide) (by decide) (by decide)
  have h2 := claim_C3_strike_affects_exactly_matches "86 EGGS"
    "Soft Scrambled Eggs" "d" eggSteps ["3 large eggs", "Salt"] [] [] 0
    true "eggs"
    (by decide) (by decide) (by decide) (by decide) (by decide)
  have h3 := claim_C3_strike_affects_exactly_matches "x quinoa"
    "Soft Scrambled Eggs" "d" eggSteps ["3 large eggs", "Salt"] [] [] 0
    true "quinoa"
    (by decide) (by decide) (by decide) (by decide) (by decide)
  refine ⟨?_, ?_, ?_, ?_⟩
  · have := (h1.2.2 (by decide)).2
    rw [this]
    decide
  · have := (h2.2.2 (by decide)).2
    rw [this]
    decide
  · exact (h3.2.1 (by decide)).2.1
  · exact (h3.2.1 (by decide)).2.2 "3 large eggs" (by decide)

/-! ## Claim C7: pick-mode numeric selection -/

/-- Full evaluation of `commands.py` `handle_user_command` on purely numeric
input while `pending_recipe_pick` is set: control reaches the numeric branch
(cancel, reset, `x N`, `pick` and the keyword filter all pass) and resolves
against the stored `pick_candidates`. -/
theorem streamlit_pick_numeric_eval {user_input : String} {n : Nat}
    (recipe_name rd : String) (steps ings : List String)
    (subs : List (String × String)) (items : List (String × String))
    (lib_name : String → String) (ss : StSessionState)
    (h : matchPureNum user_input = some n)
    (hp : ss.pending_recipe_pick = true) :
    handle_user_command user_input recipe_name rd steps ings subs items lib_name ss =
      (if ss.pick_candidates.getD [] = [] then
        (ss, .ret { handled := true
                    reply_text := "Please type a keyword for the kind of recipe you want first.\n" ++
                      "For example: \x27eggs\x27, \x27pasta\x27, \x27soup\x27, or \x27chicken\x27."
                    advance_step := false })
      else if 1 ≤ n ∧ n ≤ (ss.pick_candidates.getD []).length then
        ({ reset_conversation_for_recipe lib_name ((ss.pick_candidates.getD []).getD (n - 1) "") with
            pending_recipe_pick := false, pick_candidates := none }, .rerun)
      else
        (ss, .ret { handled := true
                    reply_text := "There are only " ++ toString (ss.pick_candidates.getD []).length ++
                      " recipes in the current list. Please pick a number between 1 and " ++
                      toString (ss.pick_candidates.getD []).length ++
                      ", or type another keyword to search again."
                    advance_step := false })) := by
  obtain ⟨ds, hne, hdig, hval, hdata⟩ := matchPureNum_some_shape h
  have hlow : pyStrip (pyLower user_input) = ⟨ds⟩ := String.ext hdata
  simp only [handle_user_command]
  rw [hlow]
  rw [if_neg (by
        rintro ⟨h' | h' | h', -⟩ <;>
          exact str_ne_of_all (p := Char.isDigit) hdig (by decide) h')]
  rw [anyTrigger_false_of_all (p := Char.isDigit) hdig
        (by intro t ht; fin_cases ht <;> decide),
      if_neg Bool.false_ne_true,
      matchXNum_none_of_digits hdig]
  rw [if_neg (str_ne_of_all (p := Char.isDigit) hdig (by decide))]
  rw [if_neg (by rintro ⟨-, h'⟩; rw [h] at h'; exact Option.noConfusion h')]
  rw [h, hp]
  simp only [if_pos rfl]
  rw [if_pos trivial]

/-- C7 (amended for `commands.py`; `app.py` deviates — see the counterexample):
with `pending_recipe_pick` set and purely numeric input `N`, the selection
resolves against the stored `pick_candidates` list: unset (or empty) — the
reply asks the user to search first and nothing changes; `1 ≤ N ≤ len` — the
candidate at 1-based position `N` of the stored list is selected, a full reset
bound to its recipe key is performed (with the pick-mode flags cleared) and
the interaction is restarted via rerun; otherwise the valid range is reported
and pick mode is retained. -/
theorem claim_C7_pick_resolves_against_candidates (user_input : String) (n : Nat)
    (recipe_name rd : String) (steps ings : List String)
    (subs : List (String × String)) (items : List (String × String))
    (lib_name : String → String) (ss : StSessionState)
    (h : matchPureNum user_input = some n)
    (hp : ss.pending_recipe_pick = true) :
    ((ss.pick_candidates = none ∨ ss.pick_candidates = some []) →
      handle_user_command user_input recipe_name rd steps ings subs items lib_name ss =
        (ss, .ret { handled := true
                    reply_text := "Please type a keyword for the kind of recipe you want first.\n" ++
                      "For example: \x27eggs\x27, \x27pasta\x27, \x27soup\x27, or \x27chicken\x27."
                    advance_step := false })) ∧
    (∀ pc, ss.pick_candidates = some pc → 1 ≤ n → n ≤ pc.length →
      handle_user_command user_input recipe_name rd steps ings subs items lib_name ss =
        (reset_conversation_for_recipe lib_name (pc.getD (n - 1) ""), .rerun) ∧
      (reset_conversation_for_recipe lib_name (pc.getD (n - 1) "")).pending_recipe_pick = false ∧
      (reset_conversation_for_recipe lib_name (pc.getD (n - 1) "")).pick_candidates = none ∧
      (reset_conversation_for_recipe lib_name (pc.getD (n - 1) "")).current_step = 0) ∧
    (∀ pc, ss.pick_candidates = some pc → pc ≠ [] → ¬(1 ≤ n ∧ n ≤ pc.length) →
      handle_user_command user_input recipe_name rd steps ings subs items lib_name ss =
        (ss, .ret { handled := true
                    reply_text := "There are only " ++ toString pc.length ++
                      " recipes in the current list. Please pick a number between 1 and " ++
                      toString pc.length ++ ", or type another keyword to search again."
                    advance_step := false })) := by
  rw [streamlit_pick_numeric_eval recipe_name rd steps ings subs items lib_name ss h hp]
  refine ⟨?_, ?_, ?_⟩
  · intro hc
    rcases hc with hc | hc <;> rw [hc] <;> simp
  · intro pc hpc h1n h2n
    rw [hpc, Option.getD_some]
    have hne0 : pc ≠ [] := by
      intro h0
      rw [h0] at h2n
      simp at h2n
      omega
    rw [if_neg hne0, if_pos ⟨h1n, h2n⟩]
    exact ⟨rfl, rfl, rfl, rfl⟩
  · intro pc hpc hne0 hnr
    rw [hpc, Option.getD_some, if_neg hne0, if_neg hnr]

/-- C7 counterexample: the claim also cites `app.py`'s
`pending_recipe_pick` numeric branch, but that dispatcher has no
`pick_candidates` at all: immediately after `pick` (no search performed, no
candidate list stored), the input `"1"` does not ask the user to search first —
it selects recipe 1 of the full catalog and performs the reset/rerun. -/
theorem claim_C7_counterexample :
    app_dispatch "1" ["s1"] twoRecipes twoNames
        { recipe_key := "scrambled_eggs", pending_recipe_pick := true } =
      (reset_conversation_for_recipe twoNames "garlic_pasta", .rerun) ∧
    (reset_conversation_for_recipe twoNames "garlic_pasta").recipe_key = "garlic_pasta" := by
  exact ⟨by decide, by decide⟩

/-- Witness for C7: after searching (candidates stored as
`["scrambled_eggs"]`), `"1"` selects the first displayed match even though the
catalog's first recipe is `garlic_pasta`; with no stored candidates the reply
asks to search first; out of range reports the valid range. -/
theorem claim_C7_witness :
    handle_user_command "1" "n" "d" ["s1"] [] [] twoRecipes twoNames
        { recipe_key := "garlic_pasta", pending_recipe_pick := true,
          pick_candidates := some ["scrambled_eggs"] } =
      (reset_conversation_for_recipe twoNames "scrambled_eggs", .rerun) ∧
    (handle_user_command "1" "n" "d" ["s1"] [] [] twoRecipes twoNames
        { recipe_key := "garlic_pasta", pending_recipe_pick := true }).2 =
      .ret { handled := true
             reply_text := "Please type a keyword for the kind of recipe you want first.\n" ++
               "For example: \x27eggs\x27, \x27pasta\x27, \x27soup\x27, or \x27chicken\x27."
             advance_step := false } ∧
    (handle_user_command "5" "n" "d" ["s1"] [] [] twoRecipes twoNames
        { recipe_key := "garlic_pasta", pending_recipe_pick := true,
          pick_candidates := some ["scrambled_eggs"] }).2 =
      .ret { handled := true
             reply_text := "There are only 1 recipes in the current list. " ++
               "Please pick a number between 1 and 1, or type another keyword to search again."
             advance_step := false } := by
  have h1 := claim_C7_pick_resolves_against_candidates "1" 1
    "n" "d" ["s1"] [] [] twoRecipes twoNames
    { recipe_key := "garlic_pasta", pending_recipe_pick := true,
      pick_candidates := some ["scrambled_eggs"] } (by decide) rfl
  have h2 := claim_C7_pick_resolves_against_candidates "1" 1
    "n" "d" ["s1"] [] [] twoRecipes twoNames
    { recipe_key := "garlic_pasta", pending_recipe_pick := true } (by decide) rfl
  have h3 := claim_C7_pick_resolves_against_candidates "5" 5
    "n" "d" ["s1"] [] [] twoRecipes twoNames
    { recipe_key := "garlic_pasta", pending_recipe_pick := true,
      pick_candidates := some ["scrambled_eggs"] } (by decide) rfl
  refine ⟨?_, ?_, ?_⟩
  · exact (h1.2.1 ["scrambled_eggs"] rfl (by decide) (by decide)).1
  · rw [h2.1 (Or.inl rfl)]
  · rw [h3.2.2 ["scrambled_eggs"] rfl (by decide) (by decide)]
    decide

/-! ## Claim C9: the state invariant -/

theorem mem_listUnion {s xs : List String} {x : String} :
    x ∈ listUnion s xs ↔ x ∈ s ∨ x ∈ xs := by
  unfold listUnion
  rw [List.mem_append, List.mem_filter]
  constructor
  · rintro (h | ⟨h, -⟩)
    · exact Or.inl h
    · exact Or.inr h
  · rintro (h | h)
    · exact Or.inl h
    · by_cases hs : x ∈ s
      · exact Or.inl hs
      · refine Or.inr ⟨h, ?_⟩
        simp [List.contains, List.elem_iff, hs]

theorem mem_listDiff {s xs : List String} {x : String} :
    x ∈ listDiff s xs ↔ x ∈ s ∧ x ∉ xs := by
  unfold listDiff
  rw [List.mem_filter]
  simp [List.contains, List.elem_iff]

theorem applySessionUpdate_fst_subset {u : SessionUpdate}
    {subs : List (String × String)} {strikes : List String} {cs : Nat}
    (hadd : u.subs_to_add = []) :
    ∀ p ∈ (applySessionUpdate u subs strikes cs).1, p ∈ subs := by
  intro p hp
  unfold applySessionUpdate at hp
  rw [hadd, List.append_nil] at hp
  exact (List.mem_filter.mp hp).1

set_option maxHeartbeats 2000000 in
/-- C9: every dispatch preserves the state invariant. For the core engine: if
`current_step ∈ [0, len steps]` (on naturals, `≤ len`), the strikes are a
subset of the recipe ingredients and every substitution key is a recipe
ingredient, then any `new_state` the dispatch returns satisfies the same
bounds. For the headless engine: applying any returned `SessionUpdate` to
fields satisfying the invariant yields fields satisfying it again. -/
theorem claim_C9_invariant_preserved (user_input : String) (state : CookingState)
    (recipe_name rd : String) (ingredients steps : List String)
    (subs : List (String × String)) (strikes : List String) (cs : Nat)
    (hc : state.current_step ≤ steps.length)
    (hs : ∀ x ∈ state.ingredient_strikes, x ∈ ingredients)
    (hb : ∀ p ∈ state.ingredient_subs, p.1 ∈ ingredients)
    (hc2 : cs ≤ steps.length)
    (hs2 : ∀ x ∈ strikes, x ∈ ingredients)
    (hb2 : ∀ p ∈ subs, p.1 ∈ ingredients) :
    (∀ ns, (handle_command user_input state recipe_name ingredients steps).new_state = some ns →
      ns.current_step ≤ steps.length ∧ (∀ x ∈ ns.ingredient_strikes, x ∈ ingredients) ∧
      (∀ p ∈ ns.ingredient_subs, p.1 ∈ ingredients)) ∧
    (∀ u, (handle_user_command_headless user_input recipe_name rd steps ingredients
        subs strikes cs).session_update = some u →
      (applySessionUpdate u subs strikes cs).2.2 ≤ steps.length ∧
      (∀ x ∈ (applySessionUpdate u subs strikes cs).2.1, x ∈ ingredients) ∧
      (∀ p ∈ (applySessionUpdate u subs strikes cs).1, p.1 ∈ ingredients)) := by
  constructor
  · intro ns hns
    unfold handle_command at hns
    dsimp only at hns
    repeat' split at hns
    all_goals dsimp only at hns
    all_goals
      first
      | exact Option.noConfusion hns
      | (injection hns with h
         subst h
         refine ⟨?_, fun x hx => ?_, fun p hp => hb p hp⟩
         · dsimp only
           first
           | omega
           | (simp only [Nat.max, Nat.min]; omega)
         · first
           | exact hs x hx
           | (rcases mem_listUnion.mp hx with hx' | hx'
              · exact hs x hx'
              · exact (List.mem_filter.mp hx').1))
  · intro u hu
    unfold handle_user_command_headless at hu
    dsimp only at hu
    repeat' split at hu
    all_goals dsimp only at hu
    all_goals
      first
      | exact Option.noConfusion hu
      | (injection hu with h
         subst h
         refine ⟨?_, fun x hx => ?_,
           fun p hp => hb2 p (applySessionUpdate_fst_subset rfl p hp)⟩
         · dsimp only [applySessionUpdate, Option.getD]
           first
           | omega
           | (simp only [Nat.max, Nat.min]; omega)
         · rcases mem_listUnion.mp hx with hx' | hx'
           · exact hs2 x (mem_listDiff.mp hx').1
           · first
             | exact absurd hx' (List.not_mem_nil x)
             | exact (List.mem_filter.mp hx').1)

/-- Witness for C9: the strike command `"x eggs"` applied to a state already
satisfying the invariant yields a state satisfying it. -/
theorem claim_C9_witness :
    (0 ≤ eggSteps.length ∧
      (∀ x ∈ ([] : List String), x ∈ eggIngredients) ∧
      (∀ p ∈ ([] : List (String × String)), p.1 ∈ eggIngredients)) ∧
    (∀ ns, (handle_command "x eggs" { recipe_key := "scrambled_eggs" } "Soft Scrambled Eggs"
        eggIngredients eggSteps).new_state = some ns →
      ns.current_step ≤ eggSteps.length ∧ (∀ x ∈ ns.ingredient_strikes, x ∈ eggIngredients) ∧
      (∀ p ∈ ns.ingredient_subs, p.1 ∈ eggIngredients)) := by
  refine ⟨⟨Nat.zero_le _, fun x hx => absurd hx (List.not_mem_nil x),
    fun p hp => absurd hp (List.not_mem_nil p)⟩, ?_⟩
  exact (claim_C9_invariant_preserved "x eggs" { recipe_key := "scrambled_eggs" }
    "Soft Scrambled Eggs" "d" eggIngredients eggSteps [] [] 0
    (by decide) (fun x hx => absurd hx (List.not_mem_nil x))
    (fun p hp => absurd hp (List.not_mem_nil p)) (by decide)
    (fun x hx => absurd hx (List.not_mem_nil x))
    (fun p hp => absurd hp (List.not_mem_nil p))).1

section Scratch

-- commands.py: numeric pick with no stored candidates asks to search first
example : (handle_user_command "1" "n" "d" ["s1"] [] [] twoRecipes twoNames
    { recipe_key := "garlic_pasta", pending_recipe_pick := true }).2 =
    .ret { handled := true
           reply_text := "Please type a keyword for the kind of recipe you want first.\n" ++
             "For example: \x27eggs\x27, \x27pasta\x27, \x27soup\x27, or \x27chicken\x27."
           advance_step := false } := by decide

-- commands.py: numeric pick resolves against the stored candidate list
example : (handle_user_command "1" "n" "d" ["s1"] [] [] twoRecipes twoNames
    { recipe_key := "garlic_pasta", pending_recipe_pick := true,
      pick_candidates := some ["scrambled_eggs"] }) =
    (reset_conversation_for_recipe twoNames "scrambled_eggs", .rerun) := by decide

-- app.py: numeric pick with no search resolves against the full catalog
example : (app_dispatch "1" ["s1"] twoRecipes twoNames
    { recipe_key := "scrambled_eggs", pending_recipe_pick := true }) =
    (reset_conversation_for_recipe twoNames "garlic_pasta", .rerun) := by decide

example : hasSubMatch "1" = false := by decide

example : hasSubMatch "sub almond milk for cream" = true := by decide

example : hasSubMatch "substitute oil for butter" = true := by decide

example : hasSubMatch "resubmit for x" = false := by decide

end Scratch

end SousChef
